import Mathlib

/-!
Shallow embedding of the Love Letter rules engine
(`src/love_letter/engine/cards.py`, `state.py`, `rules.py`).

Python's in-place mutation is rendered as explicit state passing: every
operation takes the current `RoundState`/`GameState` and returns the updated
one.  Python exceptions (`RulesError`, `IndexError`, `ValueError`) are
rendered as `Except`/`Option` results; when an operation raises before any
mutation, the embedding returns the input state unchanged alongside the
error.  The injected `random.Random` is rendered as an explicit stream of
naturals (`Rng`), consumed by `randrange`; `random.shuffle` is the
Fisher-Yates loop of CPython driven by that stream.
-/

namespace LoveLetter

/-- `cards.py`: `CardType(IntEnum)` with values 1..8. -/
inductive CardType where
  | GUARD
  | PRIEST
  | BARON
  | HANDMAID
  | PRINCE
  | KING
  | COUNTESS
  | PRINCESS
deriving DecidableEq, Repr

/-- The integer value of a card (`IntEnum` value); used for Baron comparison
and the round-end tiebreak, exactly as Python compares/sums the enum. -/
def CardType.val : CardType → Nat
  | .GUARD => 1
  | .PRIEST => 2
  | .BARON => 3
  | .HANDMAID => 4
  | .PRINCE => 5
  | .KING => 6
  | .COUNTESS => 7
  | .PRINCESS => 8

/-- `cards.py`: `CARD_COUNTS` in dict insertion order. -/
def CARD_COUNTS : List (CardType × Nat) :=
  [(.GUARD, 5), (.PRIEST, 2), (.BARON, 2), (.HANDMAID, 2),
   (.PRINCE, 2), (.KING, 1), (.COUNTESS, 1), (.PRINCESS, 1)]

/-- `state.py`: `Event` — rendered as a tagged union, one constructor per
`emit(kind, **data)` call site in `rules.py`, fields in keyword order. -/
inductive Event where
  | round_start (round : Nat) (start_player_id : Nat)
  | face_up (cards : List CardType)
  | draw (player_id : Nat) (card : CardType) (reason : Option String)
  | play (player_id : Nat) (card : CardType)
  | guard_guess (player_id : Nat) (target_id : Nat) (guess : CardType)
  | reveal (viewer_id : Nat) (target_id : Nat) (card : CardType)
  | baron_compare (player_id : Nat) (target_id : Nat)
      (player_card : CardType) (target_card : CardType)
  | protected' (player_id : Nat)
  | protection_ended (player_id : Nat)
  | discard (player_id : Nat) (card : CardType) (reason : String)
  | eliminated (player_id : Nat) (reason : String)
  | swap (player_id : Nat) (target_id : Nat)
  | countess_no_effect (player_id : Nat)
  | round_end (winners : List Nat)
  | token_awarded (player_id : Nat) (tokens : Nat)
  | deck_empty
deriving DecidableEq, Repr

/-- `state.py`: `Action` (frozen dataclass). -/
structure Action where
  player_id : Nat
  card : CardType
  target_id : Option Nat := none
  guess : Option CardType := none
deriving DecidableEq, Repr

/-- `state.py`: `PlayerState`.  The field `protected'` renders Python's
`protected` (a Lean keyword). -/
structure PlayerState where
  id : Nat
  name : String
  hand : List CardType := []
  discard : List CardType := []
  tokens : Nat := 0
  protected' : Bool := false
  eliminated : Bool := false
deriving DecidableEq, Repr

/-- `state.py`: `RoundState`. -/
structure RoundState where
  players : List PlayerState
  deck : List CardType
  burned : List CardType
  face_up : List CardType
  current_player_idx : Nat := 0
  events : List Event := []
  round_over : Bool := false
deriving DecidableEq, Repr

/-- `state.py`: `GameState`.  In Python `round_state.players` aliases
`game.players`; the embedding mirrors the shared list into both records
whenever an operation updates it. -/
structure GameState where
  players : List PlayerState
  target_tokens : Nat
  round_number : Nat := 0
  round_state : Option RoundState := none
  next_start_player_id : Option Nat := none
deriving DecidableEq, Repr

/-- `state.py`: `SetupConfig`. -/
structure SetupConfig where
  burn_face_down : Nat
  burn_face_up : Nat
deriving DecidableEq, Repr

/-- Explicit model of the injected `random.Random`: a stream of naturals.
Each primitive call consumes one element (an exhausted stream yields 0). -/
structure Rng where
  stream : List Nat
deriving DecidableEq, Repr

def Rng.next (r : Rng) : Nat × Rng :=
  match r.stream with
  | [] => (0, ⟨[]⟩)
  | n :: rest => (n, ⟨rest⟩)

/-- `Random.randrange(n)`: a value in `[0, n)` (for `n > 0`). -/
def Rng.randrange (r : Rng) (n : Nat) : Nat × Rng :=
  let p := r.next
  (p.1 % n, p.2)

/-- `Random.choice(l)`: `l[randbelow(len(l))]`; `none` models the
`IndexError` on an empty sequence. -/
def Rng.choice (r : Rng) (l : List Nat) : Option Nat × Rng :=
  let p := r.randrange l.length
  (l.get? p.1, p.2)

/-- `list.pop()` — remove and return the last element; `none` models the
`IndexError` on an empty list. -/
def popTop (l : List CardType) : Option (CardType × List CardType) :=
  match l.getLast? with
  | none => none
  | some c => some (c, l.dropLast)

/-- In-place swap `x[i], x[j] = x[j], x[i]` on a list. -/
def listSwap (l : List CardType) (i j : Nat) : List CardType :=
  match l[i]?, l[j]? with
  | some x, some y => (l.set i y).set j x
  | _, _ => l

/-- CPython `Random.shuffle` body: `for i in reversed(range(1, len(x))):
j = randbelow(i+1); swap x[i] x[j]`, recursing on the descending index. -/
def shuffleAux : Nat → List CardType × Rng → List CardType × Rng
  | 0, st => st
  | i + 1, (a, r) =>
    let p := r.randrange (i + 2)
    shuffleAux i (listSwap a (i + 1) p.1, p.2)

def Rng.shuffle (r : Rng) (a : List CardType) : List CardType × Rng :=
  shuffleAux (a.length - 1) (a, r)

/-- `rules.py`: `TARGET_TOKENS_BY_PLAYERS` lookup in `default_target_tokens`;
`none` models the raised `RulesError` for an unsupported count. -/
def default_target_tokens (n : Nat) : Option Nat :=
  if n = 2 then some 7 else if n = 3 then some 5 else if n = 4 then some 4 else none

/-- `rules.py`: `DEFAULT_SETUP_BY_PLAYERS` lookup in `default_setup`. -/
def default_setup (n : Nat) : Option SetupConfig :=
  if n = 2 then some ⟨1, 3⟩
  else if n = 3 then some ⟨1, 0⟩
  else if n = 4 then some ⟨1, 0⟩
  else none

/-- `rules.py`: `new_game`. -/
def new_game (player_names : List String) (target_tokens : Option Nat)
    : Option GameState :=
  let players := player_names.enum.map (fun p => { id := p.1, name := p.2 : PlayerState })
  match target_tokens with
  | some t => some { players := players, target_tokens := t }
  | none =>
    match default_target_tokens players.length with
    | some t => some { players := players, target_tokens := t }
    | none => none

/-- The 16-card list `build_deck` assembles from `CARD_COUNTS` before the
shuffle (dict insertion order). -/
def fullDeckList : List CardType :=
  (CARD_COUNTS.map (fun p => List.replicate p.2 p.1)).flatten

/-- `rules.py`: `build_deck` — materialize the counts, then `rng.shuffle`. -/
def build_deck (rng : Rng) : List CardType × Rng :=
  rng.shuffle fullDeckList

/-- `rules.py`: `emit` — append one event to the round's log. -/
def emit (round_state : RoundState) (e : Event) : RoundState :=
  { round_state with events := round_state.events ++ [e] }

/-- `rules.py`: `_find_player` — first player whose id matches; `none`
models the raised `RulesError("Player not found.")`. -/
def find_player (round_state : RoundState) (player_id : Nat) : Option PlayerState :=
  round_state.players.find? (fun p => p.id == player_id)

/-- Python mutates the object `_find_player` returned; the embedding applies
`f` to the first player with the given id. -/
def update_player : List PlayerState → Nat → (PlayerState → PlayerState) → List PlayerState
  | [], _, _ => []
  | p :: rest, pid, f =>
    if p.id == pid then f p :: rest else p :: update_player rest pid f

def upd (round_state : RoundState) (pid : Nat) (f : PlayerState → PlayerState) : RoundState :=
  { round_state with players := update_player round_state.players pid f }

/-- `[deck.pop() for _ in range(n)]`: the popped cards in pop order and the
remaining deck; `none` models `IndexError` on an empty deck. -/
def popN (l : List CardType) : Nat → Option (List CardType × List CardType)
  | 0 => some ([], l)
  | n + 1 =>
    match popTop l with
    | none => none
    | some (c, l') =>
      match popN l' n with
      | none => none
      | some (cs, l'') => some (c :: cs, l'')

/-- `for player in players: player.hand.append(deck.pop())`. -/
def dealOne : List PlayerState → List CardType → Option (List PlayerState × List CardType)
  | [], deck => some ([], deck)
  | p :: rest, deck =>
    match popTop deck with
    | none => none
    | some (c, deck') =>
      match dealOne rest deck' with
      | none => none
      | some (rest', deck'') => some ({ p with hand := p.hand ++ [c] } :: rest', deck'')

/-- `rules.py`: `_choose_start_player_index` — index of the first player with
`next_start_player_id` when set (0 if none matches), else `randrange`. -/
def choose_start_player_index (next_id : Option Nat) (players : List PlayerState)
    (rng : Rng) : Nat × Rng :=
  match next_id with
  | none => rng.randrange players.length
  | some nid => ((players.findIdx? (fun p => p.id == nid)).getD 0, rng)

/-- `rules.py`: `setup_round`.  `none` models a raised exception
(unsupported player count, or popping from an exhausted deck). -/
def setup_round (game_state : GameState) (rng : Rng) (setup? : Option SetupConfig)
    : Option (GameState × RoundState × Rng) :=
  match (match setup? with
         | some s => some s
         | none => default_setup game_state.players.length) with
  | none => none
  | some setup =>
    let players0 := game_state.players.map (fun p =>
      { p with hand := [], discard := [], protected' := false, eliminated := false })
    let bd := build_deck rng
    match popN bd.1 setup.burn_face_down with
    | none => none
    | some (burned, deck1) =>
      match popN deck1 setup.burn_face_up with
      | none => none
      | some (face_up, deck2) =>
        match dealOne players0 deck2 with
        | none => none
        | some (players1, deck3) =>
          let st := choose_start_player_index game_state.next_start_player_id players1 bd.2
          let rs0 : RoundState :=
            { players := players1, deck := deck3, burned := burned,
              face_up := face_up, current_player_idx := st.1 }
          match players1.get? st.1 with
          | none => none
          | some starter =>
            let rs1 := emit rs0 (.round_start (game_state.round_number + 1) starter.id)
            let rs2 := if face_up.isEmpty then rs1 else emit rs1 (.face_up face_up)
            some ({ game_state with
                      players := players1,
                      round_number := game_state.round_number + 1,
                      round_state := some rs2 },
                  rs2, st.2)

/-- `rules.py`: `start_turn`.  `.error` models the raised `RulesError`; the
`Bool` is Python's return value (`false` when the deck was empty). -/
def start_turn (round_state : RoundState) (player_id : Nat) (rng : Rng)
    : Except String (RoundState × Bool × Rng) :=
  match find_player round_state player_id with
  | none => .error "Player not found."
  | some player =>
    if player.eliminated then .error "Eliminated players cannot take turns."
    else
      let rs1 :=
        if player.protected' then
          emit (upd round_state player_id (fun p => { p with protected' := false }))
            (.protection_ended player_id)
        else round_state
      match rs1.deck.getLast? with
      | none => .ok (emit rs1 .deck_empty, false, rng)
      | some drawn =>
        let rs2 := { rs1 with deck := rs1.deck.dropLast }
        let rs3 := upd rs2 player_id (fun p => { p with hand := p.hand ++ [drawn] })
        .ok (emit rs3 (.draw player_id drawn none), true, rng)

/-- `rules.py`: `legal_play_cards`. -/
def legal_play_cards (hand : List CardType) : List CardType :=
  if CardType.COUNTESS ∈ hand ∧ (CardType.KING ∈ hand ∨ CardType.PRINCE ∈ hand) then
    [CardType.COUNTESS]
  else hand

/-- `rules.py`: `_valid_targets`. -/
def valid_targets_list (players : List PlayerState) (actor_id : Nat) (card : CardType)
    : List PlayerState :=
  players.filter (fun c =>
    if c.eliminated then false
    else if card = .GUARD ∨ card = .PRIEST ∨ card = .BARON ∨ card = .KING then
      c.id ≠ actor_id ∧ c.protected' = false
    else if card = .PRINCE then
      c.id = actor_id ∨ c.protected' = false
    else false)

/-- The checks of `validate_action` after `_find_player` succeeded, in the
source's order of early returns. -/
def validate_checks (round_state : RoundState) (player : PlayerState) (action : Action)
    : Option String :=
  if player.eliminated then some "You are eliminated."
  else if action.card ∉ player.hand then some "You must play a card from your hand."
  else if action.card ∉ legal_play_cards player.hand then
    some "You must play the Countess when holding it with King or Prince."
  else
    let targetedBlock : Option String :=
      if action.card = .GUARD ∨ action.card = .PRIEST ∨ action.card = .BARON ∨
          action.card = .KING then
        let valid := valid_targets_list round_state.players player.id action.card
        let targetPart : Option String :=
          if valid.isEmpty then
            if action.target_id ≠ none then some "No valid targets." else none
          else
            if action.target_id = none then some "This card requires a target."
            else if ¬ (∃ tid, action.target_id = some tid ∧ tid ∈ valid.map (·.id)) then
              some "Target is not valid."
            else none
        match targetPart with
        | some e => some e
        | none =>
          if action.card = .GUARD ∧ ¬ valid.isEmpty then
            match action.guess with
            | none => some "Guard requires a guess."
            | some g => if g = .GUARD then some "Guard cannot guess Guard." else none
          else none
      else none
    match targetedBlock with
    | some e => some e
    | none =>
      let princeBlock : Option String :=
        if action.card = .PRINCE then
          let valid := valid_targets_list round_state.players player.id .PRINCE
          match action.target_id with
          | none => some "Prince requires a target."
          | some tid =>
            if tid ∈ valid.map (·.id) then none else some "Target is not valid."
        else none
      match princeBlock with
      | some e => some e
      | none =>
        if action.card = .PRIEST ∧ action.target_id = some action.player_id then
          some "You must target another player."
        else if action.card = .BARON ∧ action.target_id = some action.player_id then
          some "You must target another player."
        else if action.card = .GUARD ∧ action.target_id = some action.player_id then
          some "You must target another player."
        else if action.card = .KING ∧ action.target_id = some action.player_id then
          some "You must target another player."
        else none

/-- `rules.py`: `validate_action`.  `.error` models the `RulesError` raised
by `_find_player`; `.ok (some r)` is a returned rejection reason;
`.ok none` means the action is valid. -/
def validate_action (round_state : RoundState) (action : Action)
    : Except String (Option String) :=
  match find_player round_state action.player_id with
  | none => .error "Player not found."
  | some player => .ok (validate_checks round_state player action)

/-- `rules.py`: `_eliminate_player` (idempotent): set flags, force-discard
one remaining hand card if any, emit `discard` then `eliminated`. -/
def eliminate_player (round_state : RoundState) (pid : Nat) (reason : String) : RoundState :=
  match find_player round_state pid with
  | none => round_state
  | some p =>
    if p.eliminated then round_state
    else
      let rs1 := upd round_state pid (fun q => { q with eliminated := true, protected' := false })
      let rs2 :=
        match p.hand.getLast? with
        | none => rs1
        | some c =>
          emit (upd rs1 pid (fun q =>
            { q with hand := q.hand.dropLast, discard := q.discard ++ [c] }))
            (.discard pid c "elimination")
      emit rs2 (.eliminated pid reason)

/-- `rules.py`: `_draw_replacement` — deck first, burn pile only when the
deck is empty; `rng` is accepted and unused, as in the source. -/
def draw_replacement (round_state : RoundState) (rng : Rng)
    : Option CardType × RoundState × Rng :=
  match round_state.deck.getLast? with
  | some c => (some c, { round_state with deck := round_state.deck.dropLast }, rng)
  | none =>
    match round_state.burned.getLast? with
    | some c => (some c, { round_state with burned := round_state.burned.dropLast }, rng)
    | none => (none, round_state, rng)

/-- `rules.py`: `_resolve_guard`. -/
def resolve_guard (round_state : RoundState) (pid : Nat) (tid? : Option Nat)
    (guess? : Option CardType) : RoundState :=
  match tid?, guess? with
  | some tid, some guess =>
    let rs1 := emit round_state (.guard_guess pid tid guess)
    match find_player rs1 tid with
    | none => rs1
    | some target =>
      if target.hand.head? = some guess then eliminate_player rs1 tid "guard_guess"
      else rs1
  | _, _ => round_state

/-- `rules.py`: `_resolve_priest`. -/
def resolve_priest (round_state : RoundState) (pid : Nat) (tid? : Option Nat) : RoundState :=
  match tid? with
  | none => round_state
  | some tid =>
    match find_player round_state tid with
    | none => round_state
    | some target =>
      match target.hand.head? with
      | none => round_state
      | some c => emit round_state (.reveal pid tid c)

/-- `rules.py`: `_resolve_baron`. -/
def resolve_baron (round_state : RoundState) (pid : Nat) (tid? : Option Nat) : RoundState :=
  match tid? with
  | none => round_state
  | some tid =>
    match find_player round_state pid, find_player round_state tid with
    | some player, some target =>
      match player.hand.head?, target.hand.head? with
      | some player_card, some target_card =>
        let rs1 := emit round_state (.baron_compare pid tid player_card target_card)
        if target_card.val < player_card.val then eliminate_player rs1 tid "baron"
        else if player_card.val < target_card.val then eliminate_player rs1 pid "baron"
        else rs1
      | _, _ => round_state
    | _, _ => round_state

/-- `rules.py`: `_resolve_prince`. -/
def resolve_prince (round_state : RoundState) (_pid : Nat) (tid? : Option Nat) (rng : Rng)
    : RoundState × Rng :=
  match tid? with
  | none => (round_state, rng)
  | some tid =>
    match find_player round_state tid with
    | none => (round_state, rng)
    | some target =>
      let step1 : RoundState × Bool :=
        match target.hand.getLast? with
        | none => (round_state, false)
        | some discarded =>
          let rs1 := upd round_state tid (fun q =>
            { q with hand := q.hand.dropLast, discard := q.discard ++ [discarded] })
          let rs2 := emit rs1 (.discard tid discarded "prince")
          if discarded = .PRINCESS then
            (eliminate_player rs2 tid "prince_princess", true)
          else (rs2, false)
      if step1.2 then (step1.1, rng)
      else
        match find_player step1.1 tid with
        | none => (step1.1, rng)
        | some target' =>
          if target'.eliminated then (step1.1, rng)
          else
            match draw_replacement step1.1 rng with
            | (none, rs', rng') => (rs', rng')
            | (some replacement, rs', rng') =>
              (emit (upd rs' tid (fun q => { q with hand := q.hand ++ [replacement] }))
                 (.draw tid replacement (some "prince")), rng')

/-- `rules.py`: `_resolve_king`. -/
def resolve_king (round_state : RoundState) (pid : Nat) (tid? : Option Nat) : RoundState :=
  match tid? with
  | none => round_state
  | some tid =>
    match find_player round_state pid, find_player round_state tid with
    | some player, some target =>
      if player.hand.isEmpty ∨ target.hand.isEmpty then round_state
      else
        let rs1 := upd round_state pid (fun q => { q with hand := target.hand })
        let rs2 := upd rs1 tid (fun q => { q with hand := player.hand })
        emit rs2 (.swap pid tid)
    | _, _ => round_state

/-- The mutation part of `apply_action`, after validation passed and the
actor and optional target were found: move the played card from hand to
discard, emit `play`, dispatch on the card. -/
def apply_action_body (round_state : RoundState) (action : Action) (rng : Rng)
    (player : PlayerState) (target? : Option PlayerState) : RoundState × Rng :=
  let rs1 := upd round_state player.id (fun q =>
    { q with hand := q.hand.erase action.card, discard := q.discard ++ [action.card] })
  let rs2 := emit rs1 (.play player.id action.card)
  let tid? := target?.map (·.id)
  match action.card with
  | .GUARD => (resolve_guard rs2 player.id tid? action.guess, rng)
  | .PRIEST => (resolve_priest rs2 player.id tid?, rng)
  | .BARON => (resolve_baron rs2 player.id tid?, rng)
  | .HANDMAID =>
    (emit (upd rs2 player.id (fun q => { q with protected' := true }))
       (.protected' player.id), rng)
  | .PRINCE => resolve_prince rs2 player.id tid? rng
  | .KING => (resolve_king rs2 player.id tid?, rng)
  | .COUNTESS => (emit rs2 (.countess_no_effect player.id), rng)
  | .PRINCESS => (eliminate_player rs2 player.id "played_princess", rng)

/-- `rules.py`: `apply_action`, with the caller-observable outcome made
explicit: the returned `RoundState × Rng` is what the caller's references
hold after the call, and `some e` is a raised `RulesError e` (every raise
happens before the first mutation, so the input state is returned). -/
def apply_action_run (round_state : RoundState) (action : Action) (rng : Rng)
    : RoundState × Rng × Option String :=
  match validate_action round_state action with
  | .error e => (round_state, rng, some e)
  | .ok (some reason) => (round_state, rng, some reason)
  | .ok none =>
    match find_player round_state action.player_id with
    | none => (round_state, rng, some "Player not found.")
    | some player =>
      match action.target_id with
      | some tid =>
        match find_player round_state tid with
        | none => (round_state, rng, some "Player not found.")
        | some target =>
          let out := apply_action_body round_state action rng player (some target)
          (out.1, out.2, none)
      | none =>
        let out := apply_action_body round_state action rng player none
        (out.1, out.2, none)

/-- `rules.py`: `advance_turn` loop body: walk forward (wrapping) up to
`len(players)` seats looking for a non-eliminated one. -/
def advance_aux (players : List PlayerState) : Nat → Nat → Option Nat
  | 0, _ => none
  | fuel + 1, idx =>
    let idx' := (idx + 1) % players.length
    match players.get? idx' with
    | none => none
    | some p => if p.eliminated then advance_aux players fuel idx' else some idx'

/-- `rules.py`: `advance_turn`. -/
def advance_turn (round_state : RoundState) : RoundState :=
  if round_state.round_over then round_state
  else
    match advance_aux round_state.players round_state.players.length
        round_state.current_player_idx with
    | some i => { round_state with current_player_idx := i }
    | none => round_state

/-- Sum of the integer values of a player's discard pile
(`sum(card for card in p.discard)`). -/
def discard_sum (p : PlayerState) : Nat :=
  (p.discard.map CardType.val).sum

/-- The value of `p.hand[0]`; callers only use it where the hand is
known nonempty (Python would raise otherwise). -/
def hand_value (p : PlayerState) : Nat :=
  (p.hand.headD .GUARD).val

/-- `rules.py`: `_determine_highest_hand`; `none` models the `ValueError`
of `max()` on an empty sequence (every active player's hand empty). -/
def determine_highest_hand (players : List PlayerState) : Option (List PlayerState) :=
  match ((players.filter (fun p => !p.hand.isEmpty)).map hand_value).max? with
  | none => none
  | some best_value =>
    let candidates := players.filter (fun p => !p.hand.isEmpty && hand_value p == best_value)
    if candidates.length ≤ 1 then some candidates
    else
      match (candidates.map discard_sum).max? with
      | none => none
      | some best_discard =>
        some (candidates.filter (fun p => discard_sum p == best_discard))

/-- The token-award loop of `check_round_end`:
`for winner in winners: winner.tokens += 1; emit token_awarded`. -/
def award : List Nat → RoundState → RoundState
  | [], rs => rs
  | wid :: rest, rs =>
    match find_player rs wid with
    | none => award rest rs
    | some p =>
      award rest
        (emit (upd rs wid (fun q => { q with tokens := q.tokens + 1 }))
          (.token_awarded wid (p.tokens + 1)))

/-- The terminal part of `check_round_end` once the winner list is known. -/
def finish_round (game_state : GameState) (round_state : RoundState) (rng : Rng)
    (winners : List PlayerState) : Option (GameState × RoundState × Rng) :=
  let rs1 := { round_state with round_over := true }
  let rs2 := emit rs1 (.round_end (winners.map (·.id)))
  let rs3 := award (winners.map (·.id)) rs2
  if winners.isEmpty then
    some ({ game_state with players := rs3.players, round_state := some rs3 }, rs3, rng)
  else
    match rng.choice (winners.map (·.id)) with
    | (none, _) => none
    | (some nid, rng') =>
      let g' := { game_state with players := rs3.players, round_state := some rs3 }
      some ({ g' with next_start_player_id := some nid }, rs3, rng')

/-- `rules.py`: `check_round_end`.  `none` models a raised exception
(`max()` on all-empty hands). -/
def check_round_end (game_state : GameState) (round_state : RoundState) (rng : Rng)
    : Option (GameState × RoundState × Rng) :=
  if round_state.round_over then some (game_state, round_state, rng)
  else
    let active := round_state.players.filter (fun p => !p.eliminated)
    if active.length ≤ 1 then finish_round game_state round_state rng active
    else if round_state.deck.isEmpty then
      match determine_highest_hand active with
      | none => none
      | some winners => finish_round game_state round_state rng winners
    else some (game_state, round_state, rng)

/-- `rules.py`: `game_over`. -/
def game_over (game_state : GameState) : Bool :=
  game_state.players.any (fun p => game_state.target_tokens ≤ p.tokens)

/-- The cards a player holds or has discarded, as a multiset. -/
def playerCards (p : PlayerState) : Multiset CardType :=
  (p.hand : Multiset CardType) + (p.discard : Multiset CardType)

/-- The multiset union of the round's deck, burned pile, face-up cards,
every hand and every discard. -/
def roundCards (rs : RoundState) : Multiset CardType :=
  (rs.deck : Multiset CardType) + (rs.burned : Multiset CardType)
    + (rs.face_up : Multiset CardType) + (rs.players.map playerCards).sum

/-- The fixed 16-card deck multiset: 5 Guards, 2 Priests, 2 Barons,
2 Handmaids, 2 Princes, 1 King, 1 Countess, 1 Princess. -/
def fullDeck : Multiset CardType :=
  (fullDeckList : Multiset CardType)

/-- Round states reachable through the engine's operations: a state produced
by `setup_round`, or any engine operation applied to a reachable state. -/
inductive Reachable : RoundState → Prop where
  | setup (g : GameState) (r : Rng) (s? : Option SetupConfig) (g' : GameState)
      (rs : RoundState) (r' : Rng) :
      setup_round g r s? = some (g', rs, r') → Reachable rs
  | turn (rs : RoundState) (pid : Nat) (r : Rng) (rs' : RoundState) (b : Bool) (r' : Rng) :
      Reachable rs → start_turn rs pid r = .ok (rs', b, r') → Reachable rs'
  | act (rs : RoundState) (a : Action) (r : Rng) (rs' : RoundState) (r' : Rng)
      (err : Option String) :
      Reachable rs → apply_action_run rs a r = (rs', r', err) → Reachable rs'
  | check (g : GameState) (rs : RoundState) (r : Rng) (g' : GameState) (rs' : RoundState)
      (r' : Rng) :
      Reachable rs → check_round_end g rs r = some (g', rs', r') → Reachable rs'
  | advance (rs : RoundState) : Reachable rs → Reachable (advance_turn rs)

/-- The round-end winner set in the words of the specification: the active
players whose single hand card has the maximum value; if more than one, the
subset with the maximum sum of discarded card values. -/
def c7_spec_winners (active : List PlayerState) : List PlayerState :=
  let cands := active.filter (fun p =>
    !p.hand.isEmpty && active.all (fun q => q.hand.isEmpty || hand_value q ≤ hand_value p))
  if cands.length ≤ 1 then cands
  else cands.filter (fun p => cands.all (fun q => discard_sum q ≤ discard_sum p))

/-! Concrete states used to instantiate the theorems below. -/

def emptyRound : RoundState :=
  { players := [], deck := [], burned := [], face_up := [] }

def gC1 : GameState :=
  { players := [{ id := 0, name := "alice" }, { id := 1, name := "bob" }],
    target_tokens := 7 }

def rC1 : Rng := ⟨[]⟩

def gC1' : GameState :=
  match setup_round gC1 rC1 none with
  | some x => x.1
  | none => gC1

def rsC1 : RoundState :=
  match setup_round gC1 rC1 none with
  | some x => x.2.1
  | none => emptyRound

def rC1' : Rng :=
  match setup_round gC1 rC1 none with
  | some x => x.2.2
  | none => rC1

def rsC2 : RoundState :=
  { players := [{ id := 0, name := "alice", hand := [.GUARD] },
                { id := 1, name := "bob", hand := [.PRIEST] }],
    deck := [.BARON], burned := [], face_up := [] }

def rsC4 : RoundState :=
  { players := [{ id := 0, name := "alice", hand := [.GUARD] },
                { id := 1, name := "bob", hand := [.PRIEST], protected' := true }],
    deck := [.BARON], burned := [], face_up := [] }

def actC4 : Action :=
  { player_id := 0, card := .GUARD, target_id := none, guess := some .GUARD }

def rsC4b : RoundState :=
  { players := [{ id := 0, name := "alice", hand := [.GUARD] },
                { id := 1, name := "bob", hand := [.PRIEST] }],
    deck := [.BARON], burned := [], face_up := [] }

def rsC5 : RoundState :=
  { players := [{ id := 0, name := "alice", hand := [.PRINCE] },
                { id := 1, name := "bob", hand := [.PRIEST] }],
    deck := [.BARON], burned := [.KING], face_up := [] }

def rsC6 : RoundState :=
  { players := [{ id := 0, name := "alice", hand := [.PRIEST], discard := [.BARON] },
                { id := 1, name := "bob", hand := [.GUARD] }],
    deck := [], burned := [], face_up := [] }

def rsC7 : RoundState :=
  { players := [{ id := 0, name := "alice", hand := [.PRIEST], discard := [.GUARD] },
                { id := 1, name := "bob", hand := [.PRIEST], discard := [.BARON] }],
    deck := [], burned := [], face_up := [] }

def gC7 : GameState :=
  { players := rsC7.players, target_tokens := 7 }

def gC8 : GameState :=
  { players := [{ id := 0, name := "alice" }, { id := 1, name := "bob" }],
    target_tokens := 7, next_start_player_id := some 1 }

def gC8' : GameState :=
  match setup_round gC8 ⟨[]⟩ none with
  | some x => x.1
  | none => gC8

def rsC8' : RoundState :=
  match setup_round gC8 ⟨[]⟩ none with
  | some x => x.2.1
  | none => emptyRound

def rC8' : Rng :=
  match setup_round gC8 ⟨[]⟩ none with
  | some x => x.2.2
  | none => ⟨[]⟩

def rsC10 : RoundState :=
  { players := [{ id := 0, name := "alice", hand := [.HANDMAID, .GUARD] },
                { id := 1, name := "bob", hand := [.PRIEST] }],
    deck := [.BARON], burned := [], face_up := [] }

def actC10 : Action :=
  { player_id := 0, card := .HANDMAID, target_id := some 99, guess := none }

/-! Theorems. -/

/-- C3: `legal_play_cards` returns exactly `[Countess]` when the hand holds
the Countess together with the King or the Prince, and the full hand
unchanged otherwise. -/
theorem c3_legal_play_cards (hand : List CardType) :
    (CardType.COUNTESS ∈ hand ∧ (CardType.KING ∈ hand ∨ CardType.PRINCE ∈ hand) →
      legal_play_cards hand = [CardType.COUNTESS]) ∧
    (¬ (CardType.COUNTESS ∈ hand ∧ (CardType.KING ∈ hand ∨ CardType.PRINCE ∈ hand)) →
      legal_play_cards hand = hand) := by
  constructor <;> intro h <;> simp [legal_play_cards, h]

/-- Witness for C3 at two concrete hands. -/
theorem c3_witness :
    legal_play_cards [CardType.COUNTESS, CardType.KING] = [CardType.COUNTESS] ∧
    legal_play_cards [CardType.GUARD, CardType.PRIEST] =
      [CardType.GUARD, CardType.PRIEST] :=
  ⟨(c3_legal_play_cards _).1 (by decide), (c3_legal_play_cards _).2 (by decide)⟩

/-- C9: the engine is deterministic in its explicit inputs — equal argument
states (including equal random-source states) give equal results for
`build_deck` and for every operation taking a random source. -/
theorem c9_determinism (r₁ r₂ : Rng) (g₁ g₂ : GameState) (rs₁ rs₂ : RoundState)
    (a₁ a₂ : Action) (pid₁ pid₂ : Nat)
    (hr : r₁ = r₂) (hg : g₁ = g₂) (hrs : rs₁ = rs₂) (ha : a₁ = a₂) (hp : pid₁ = pid₂) :
    build_deck r₁ = build_deck r₂ ∧
    setup_round g₁ r₁ none = setup_round g₂ r₂ none ∧
    start_turn rs₁ pid₁ r₁ = start_turn rs₂ pid₂ r₂ ∧
    apply_action_run rs₁ a₁ r₁ = apply_action_run rs₂ a₂ r₂ ∧
    check_round_end g₁ rs₁ r₁ = check_round_end g₂ rs₂ r₂ := by
  subst hr hg hrs ha hp
  exact ⟨rfl, rfl, rfl, rfl, rfl⟩

/-- Witness for C9 at concrete equal inputs. -/
theorem c9_witness :
    build_deck ⟨[]⟩ = build_deck ⟨[]⟩ ∧
    setup_round gC1 ⟨[]⟩ none = setup_round gC1 ⟨[]⟩ none ∧
    start_turn rsC2 0 ⟨[]⟩ = start_turn rsC2 0 ⟨[]⟩ ∧
    apply_action_run rsC2 { player_id := 0, card := .GUARD } ⟨[]⟩ =
      apply_action_run rsC2 { player_id := 0, card := .GUARD } ⟨[]⟩ ∧
    check_round_end gC1 rsC2 ⟨[]⟩ = check_round_end gC1 rsC2 ⟨[]⟩ :=
  c9_determinism ⟨[]⟩ ⟨[]⟩ gC1 gC1 rsC2 rsC2
    { player_id := 0, card := .GUARD } { player_id := 0, card := .GUARD } 0 0
    rfl rfl rfl rfl rfl

/-- C2: when `apply_action` fails it raises before any mutation, so the
caller-observable round state and rng are exactly the inputs; a validation
rejection or a raise inside validation surfaces as that same failure. -/
theorem c2_no_mutation_on_failure :
    (∀ (rs : RoundState) (a : Action) (r : Rng) (rs' : RoundState) (r' : Rng) (e : String),
      apply_action_run rs a r = (rs', r', some e) → rs' = rs ∧ r' = r) ∧
    (∀ (rs : RoundState) (a : Action) (r : Rng) (e : String),
      validate_action rs a = .ok (some e) → apply_action_run rs a r = (rs, r, some e)) ∧
    (∀ (rs : RoundState) (a : Action) (r : Rng) (e : String),
      validate_action rs a = .error e → apply_action_run rs a r = (rs, r, some e)) := by
  refine ⟨?_, ?_, ?_⟩
  · intro rs a r rs' r' e h
    simp only [apply_action_run] at h
    repeat' split at h
    all_goals
      injection h with h1 h2
    all_goals
      injection h2 with h2a h2b
    all_goals
      first
        | exact ⟨h1.symm, h2a.symm⟩
        | exact Option.noConfusion h2b
  · intro rs a r e h
    simp [apply_action_run, h]
  · intro rs a r e h
    simp [apply_action_run, h]

/-- Witness for C2: a concrete rejected action leaves the state untouched. -/
theorem c2_witness :
    apply_action_run rsC2 { player_id := 0, card := .BARON } ⟨[]⟩ =
      (rsC2, ⟨[]⟩, some "You must play a card from your hand.") :=
  c2_no_mutation_on_failure.2.1 rsC2 { player_id := 0, card := .BARON } ⟨[]⟩
    "You must play a card from your hand." rfl

/-- C10: an action playing Handmaid, Countess or Princess passes validation
regardless of target and guess, yet `apply_action` still raises
`RulesError ("Player not found.")` when its target id matches no player. -/
theorem c10_validate_passes_apply_fails (rs : RoundState) (a : Action) (p : PlayerState)
    (tid : Nat) (r : Rng)
    (hf : find_player rs a.player_id = some p)
    (he : p.eliminated = false)
    (hh : a.card ∈ p.hand)
    (hl : a.card ∈ legal_play_cards p.hand)
    (hc : a.card = .HANDMAID ∨ a.card = .COUNTESS ∨ a.card = .PRINCESS)
    (ht : a.target_id = some tid)
    (hmiss : find_player rs tid = none) :
    validate_action rs a = .ok none ∧
    apply_action_run rs a r = (rs, r, some "Player not found.") := by
  have hvc : validate_checks rs p a = none := by
    rcases hc with h | h | h <;>
      rw [h] at hh hl <;>
      simp [validate_checks, he, hh, hl, h]
  have hv : validate_action rs a = .ok none := by
    simp [validate_action, hf, hvc]
  refine ⟨hv, ?_⟩
  simp [apply_action_run, hv, hf, ht, hmiss]

/-- Witness for C10 at a concrete state and action. -/
theorem c10_witness :
    validate_action rsC10 actC10 = .ok none ∧
    apply_action_run rsC10 actC10 ⟨[]⟩ = (rsC10, ⟨[]⟩, some "Player not found.") :=
  c10_validate_passes_apply_fails rsC10 actC10
    { id := 0, name := "alice", hand := [.HANDMAID, .GUARD] } 99 ⟨[]⟩
    (by decide) rfl (by decide) (by decide) (by decide) rfl (by decide)

/-- C4 counterexample: with the lone opponent protected, no valid Guard
target exists, and a Guard action guessing Guard (with no target) passes
`validate_action` and applies without error. -/
theorem c4_counterexample :
    actC4.card = CardType.GUARD ∧ actC4.guess = some CardType.GUARD ∧
    validate_action rsC4 actC4 = .ok none ∧
    (apply_action_run rsC4 actC4 ⟨[]⟩).2.2 = none := by
  refine ⟨rfl, rfl, rfl, rfl⟩

theorem match_some_ne_none (o : Option String) (s : String) :
    (match o with | some e => some e | none => some s) ≠ none := by
  cases o <;> simp

/-- C4 (amended): an action with card Guard and guess Guard is rejected by
`validate_action` whenever a valid target exists for the acting player;
with no valid target and no target supplied, the guess is ignored. -/
theorem c4_guard_guess_guard (rs : RoundState) (a : Action) (p : PlayerState)
    (hf : find_player rs a.player_id = some p)
    (hc : a.card = .GUARD)
    (hg : a.guess = some .GUARD)
    (hv : valid_targets_list rs.players p.id .GUARD ≠ []) :
    validate_action rs a ≠ .ok none := by
  intro hok
  simp only [validate_action, hf, Except.ok.injEq] at hok
  have hvE : (valid_targets_list rs.players p.id CardType.GUARD).isEmpty = false := by
    cases hE : (valid_targets_list rs.players p.id CardType.GUARD).isEmpty
    · rfl
    · exact absurd (by simpa using hE) hv
  simp only [validate_checks, hc, hg] at hok
  simp [hvE] at hok
  repeat' split at hok
  all_goals try simp_all
  all_goals exact match_some_ne_none _ _ (by assumption)

/-- Witness for the amended C4 at a concrete state with a valid target. -/
theorem c4_witness :
    validate_action rsC4b
      { player_id := 0, card := .GUARD, target_id := some 1, guess := some .GUARD } ≠
      .ok none :=
  c4_guard_guess_guard rsC4b
    { player_id := 0, card := .GUARD, target_id := some 1, guess := some .GUARD }
    { id := 0, name := "alice", hand := [.GUARD] }
    (by decide) rfl rfl (by decide)

/-! Helper lemmas about `emit`, `upd` and `find_player`. -/

theorem emit_players (rs : RoundState) (e : Event) : (emit rs e).players = rs.players := rfl

theorem emit_deck (rs : RoundState) (e : Event) : (emit rs e).deck = rs.deck := rfl

theorem emit_burned (rs : RoundState) (e : Event) : (emit rs e).burned = rs.burned := rfl

theorem emit_events (rs : RoundState) (e : Event) :
    (emit rs e).events = rs.events ++ [e] := rfl

theorem upd_deck (rs : RoundState) (pid : Nat) (f : PlayerState → PlayerState) :
    (upd rs pid f).deck = rs.deck := rfl

theorem upd_events (rs : RoundState) (pid : Nat) (f : PlayerState → PlayerState) :
    (upd rs pid f).events = rs.events := rfl

theorem upd_burned (rs : RoundState) (pid : Nat) (f : PlayerState → PlayerState) :
    (upd rs pid f).burned = rs.burned := rfl

theorem find_player_emit (rs : RoundState) (e : Event) (pid : Nat) :
    find_player (emit rs e) pid = find_player rs pid := rfl

theorem find_player_id (rs : RoundState) (pid : Nat) (p : PlayerState)
    (hf : find_player rs pid = some p) : p.id = pid := by
  have := List.find?_some hf
  simpa using this

theorem find?_update_self (pid : Nat) (f : PlayerState → PlayerState)
    (hid : ∀ q, (f q).id = q.id) :
    ∀ (ps : List PlayerState) (p : PlayerState),
      ps.find? (fun q => q.id == pid) = some p →
      (update_player ps pid f).find? (fun q => q.id == pid) = some (f p) := by
  intro ps
  induction ps with
  | nil => intro p h; simp at h
  | cons a t ih =>
    intro p h
    by_cases ha : a.id = pid
    · have hb : (a.id == pid) = true := by simpa using ha
      have hb2 : ((f a).id == pid) = true := by rw [hid]; exact hb
      simp only [List.find?_cons, hb] at h
      injection h with h
      simp only [update_player, hb, if_true, List.find?_cons, hb2]
      exact congrArg some (congrArg f h)
    · have hb : (a.id == pid) = false := by simpa using ha
      simp only [List.find?_cons, hb] at h
      simp only [update_player, hb, Bool.false_eq_true, if_false, List.find?_cons]
      exact ih p h

theorem find?_update_other (pid tid : Nat) (f : PlayerState → PlayerState)
    (hid : ∀ q, (f q).id = q.id) (hne : pid ≠ tid) :
    ∀ ps : List PlayerState,
      (update_player ps tid f).find? (fun q => q.id == pid) =
        ps.find? (fun q => q.id == pid) := by
  intro ps
  induction ps with
  | nil => rfl
  | cons a t ih =>
    by_cases ha : a.id = tid
    · have hb : (a.id == tid) = true := by simpa using ha
      have hfa : ((f a).id == pid) = false := by
        rw [hid, ha]
        simpa using Ne.symm hne
      have haa : (a.id == pid) = false := by
        rw [ha]
        simpa using Ne.symm hne
      simp only [update_player, hb, if_true, List.find?_cons, hfa, haa]
    · have hb : (a.id == tid) = false := by simpa using ha
      simp only [update_player, hb, Bool.false_eq_true, if_false, List.find?_cons]
      cases hp : (a.id == pid)
      · exact ih
      · rfl

theorem find_player_upd_self (rs : RoundState) (pid : Nat) (f : PlayerState → PlayerState)
    (p : PlayerState) (hid : ∀ q, (f q).id = q.id)
    (hf : find_player rs pid = some p) :
    find_player (upd rs pid f) pid = some (f p) :=
  find?_update_self pid f hid rs.players p hf

theorem find_player_upd_other (rs : RoundState) (pid tid : Nat)
    (f : PlayerState → PlayerState) (hid : ∀ q, (f q).id = q.id) (hne : pid ≠ tid) :
    find_player (upd rs tid f) pid = find_player rs pid :=
  find?_update_other pid tid f hid hne rs.players

/-- Observable effect of `_eliminate_player` on a present, not yet
eliminated player. -/
theorem eliminate_player_spec (rs : RoundState) (pid : Nat) (reason : String)
    (p : PlayerState) (hf : find_player rs pid = some p) (he : p.eliminated = false) :
    (eliminate_player rs pid reason).deck = rs.deck ∧
    (eliminate_player rs pid reason).burned = rs.burned ∧
    (eliminate_player rs pid reason).face_up = rs.face_up ∧
    (eliminate_player rs pid reason).round_over = rs.round_over ∧
    (eliminate_player rs pid reason).events =
      rs.events ++ (match p.hand.getLast? with
        | none => [Event.eliminated pid reason]
        | some c => [Event.discard pid c "elimination", Event.eliminated pid reason]) ∧
    find_player (eliminate_player rs pid reason) pid =
      some { p with hand := p.hand.dropLast, discard := p.discard ++ p.hand.getLast?.toList, protected' := false, eliminated := true } ∧
    (∀ qid, qid ≠ pid → find_player (eliminate_player rs pid reason) qid =
      find_player rs qid) := by
  cases hlast : p.hand.getLast? with
  | none =>
    have hnil : p.hand = [] := by simpa using hlast
    have hrw : eliminate_player rs pid reason =
        emit (upd rs pid (fun q => { q with eliminated := true, protected' := false }))
          (.eliminated pid reason) := by
      simp [eliminate_player, hf, he, hlast]
    rw [hrw]
    have hfind := find_player_upd_self rs pid
      (fun q => { q with eliminated := true, protected' := false }) p (fun q => rfl) hf
    refine ⟨rfl, rfl, rfl, rfl, rfl, ?_, ?_⟩
    · rw [find_player_emit, hfind]
      simp [hnil]
    · intro qid hq
      rw [find_player_emit]
      exact find_player_upd_other _ _ _ _ (fun q => rfl) hq
  | some c =>
    have hrw : eliminate_player rs pid reason =
        emit (emit (upd (upd rs pid
            (fun q => { q with eliminated := true, protected' := false })) pid
            (fun q => { q with hand := q.hand.dropLast, discard := q.discard ++ [c] }))
          (.discard pid c "elimination")) (.eliminated pid reason) := by
      simp [eliminate_player, hf, he, hlast]
    rw [hrw]
    have hfind1 := find_player_upd_self rs pid
      (fun q => { q with eliminated := true, protected' := false }) p (fun q => rfl) hf
    have hfind2 := find_player_upd_self
      (upd rs pid (fun q => { q with eliminated := true, protected' := false })) pid
      (fun q => { q with hand := q.hand.dropLast, discard := q.discard ++ [c] })
      { p with eliminated := true, protected' := false } (fun q => rfl) hfind1
    refine ⟨rfl, rfl, rfl, rfl, ?_, ?_, ?_⟩
    · simp [emit, upd]
    · rw [find_player_emit, find_player_emit, hfind2]
      simp
    · intro qid hq
      rw [find_player_emit, find_player_emit]
      rw [find_player_upd_other (upd rs pid
        (fun q => { q with eliminated := true, protected' := false })) qid pid
        (fun q => { q with hand := q.hand.dropLast, discard := q.discard ++ [c] })
        (fun q => rfl) hq]
      exact find_player_upd_other _ _ _ _ (fun q => rfl) hq

/-- C6: Baron with a present target and single-card hands on both sides
emits `baron_compare`; the strictly lower card's holder is eliminated and
the other survives; an exact tie eliminates neither. -/
theorem c6_baron_compare (rs : RoundState) (pid tid : Nat) (p t : PlayerState)
    (pc tc : CardType) (hne : pid ≠ tid)
    (hfp : find_player rs pid = some p) (hft : find_player rs tid = some t)
    (hhp : p.hand = [pc]) (hht : t.hand = [tc])
    (hep : p.eliminated = false) (het : t.eliminated = false) :
    (pc.val = tc.val →
      resolve_baron rs pid (some tid) =
        { rs with events := rs.events ++ [.baron_compare pid tid pc tc] }) ∧
    (tc.val < pc.val →
      find_player (resolve_baron rs pid (some tid)) tid =
        some { t with hand := [], discard := t.discard ++ [tc], protected' := false, eliminated := true } ∧
      find_player (resolve_baron rs pid (some tid)) pid = some p ∧
      (resolve_baron rs pid (some tid)).events =
        rs.events ++ [.baron_compare pid tid pc tc,
          .discard tid tc "elimination", .eliminated tid "baron"]) ∧
    (pc.val < tc.val →
      find_player (resolve_baron rs pid (some tid)) pid =
        some { p with hand := [], discard := p.discard ++ [pc], protected' := false, eliminated := true } ∧
      find_player (resolve_baron rs pid (some tid)) tid = some t ∧
      (resolve_baron rs pid (some tid)).events =
        rs.events ++ [.baron_compare pid tid pc tc,
          .discard pid pc "elimination", .eliminated pid "baron"]) := by
  simp only [resolve_baron, hfp, hft, hhp, hht, List.head?]
  refine ⟨?_, ?_, ?_⟩
  · intro hv
    simp [hv, Nat.lt_irrefl, emit]
  · intro hv
    have hv2 : ¬ pc.val < tc.val := Nat.lt_asymm hv
    simp only [hv, if_true]
    obtain ⟨hd, hb, hfu, hro, hev, hself, hother⟩ :=
      eliminate_player_spec (emit rs (.baron_compare pid tid pc tc)) tid "baron" t
        (by rw [find_player_emit]; exact hft) het
    refine ⟨?_, ?_, ?_⟩
    · rw [hself, hht]
      simp
    · rw [hother pid hne, find_player_emit]; exact hfp
    · rw [hev, hht]
      simp [emit]
  · intro hv
    have hv2 : ¬ tc.val < pc.val := Nat.lt_asymm hv
    simp only [hv, hv2, if_false, if_true]
    obtain ⟨hd, hb, hfu, hro, hev, hself, hother⟩ :=
      eliminate_player_spec (emit rs (.baron_compare pid tid pc tc)) pid "baron" p
        (by rw [find_player_emit]; exact hfp) hep
    refine ⟨?_, ?_, ?_⟩
    · rw [hself, hhp]
      simp
    · rw [hother tid (Ne.symm hne), find_player_emit]; exact hft
    · rw [hev, hhp]
      simp [emit]

/-- Witness for C6: a Priest-vs-Guard Baron duel eliminates the Guard
holder; the actor survives. -/
theorem c6_witness :
    find_player (resolve_baron rsC6 0 (some 1)) 1 =
      some { id := 1, name := "bob", hand := [], discard := [.GUARD],
             protected' := false, eliminated := true } ∧
    find_player (resolve_baron rsC6 0 (some 1)) 0 =
      some { id := 0, name := "alice", hand := [.PRIEST], discard := [.BARON] } ∧
    (resolve_baron rsC6 0 (some 1)).events =
      [.baron_compare 0 1 .PRIEST .GUARD,
        .discard 1 .GUARD "elimination", .eliminated 1 "baron"] := by
  have h := c6_baron_compare rsC6 0 1
    { id := 0, name := "alice", hand := [.PRIEST], discard := [.BARON] }
    { id := 1, name := "bob", hand := [.GUARD] }
    .PRIEST .GUARD (by decide) (by decide) (by decide) rfl rfl rfl rfl
  exact h.2.1 (by decide)

/-- C5: resolving the Prince against a target holding one card discards it
with reason `prince`; a discarded Princess eliminates the target with no
replacement; otherwise a replacement is drawn from the deck, or from the
burned pile only when the deck is empty, with a `prince` draw event; with
both empty the target keeps an empty hand and stays in the round. -/
theorem c5_prince_effect (rs : RoundState) (pid tid : Nat) (r : Rng) (t : PlayerState)
    (c d : CardType)
    (hft : find_player rs tid = some t)
    (hh : t.hand = [c])
    (het : t.eliminated = false) :
    (c = .PRINCESS →
      find_player (resolve_prince rs pid (some tid) r).1 tid =
        some { t with hand := [], discard := t.discard ++ [c], protected' := false, eliminated := true } ∧
      (resolve_prince rs pid (some tid) r).1.deck = rs.deck ∧
      (resolve_prince rs pid (some tid) r).1.burned = rs.burned ∧
      (resolve_prince rs pid (some tid) r).1.events =
        rs.events ++ [.discard tid c "prince", .eliminated tid "prince_princess"]) ∧
    (c ≠ .PRINCESS → rs.deck.getLast? = some d →
      find_player (resolve_prince rs pid (some tid) r).1 tid =
        some { t with hand := [d], discard := t.discard ++ [c] } ∧
      (resolve_prince rs pid (some tid) r).1.deck = rs.deck.dropLast ∧
      (resolve_prince rs pid (some tid) r).1.burned = rs.burned ∧
      (resolve_prince rs pid (some tid) r).1.events =
        rs.events ++ [.discard tid c "prince", .draw tid d (some "prince")]) ∧
    (c ≠ .PRINCESS → rs.deck = [] → rs.burned.getLast? = some d →
      find_player (resolve_prince rs pid (some tid) r).1 tid =
        some { t with hand := [d], discard := t.discard ++ [c] } ∧
      (resolve_prince rs pid (some tid) r).1.deck = [] ∧
      (resolve_prince rs pid (some tid) r).1.burned = rs.burned.dropLast ∧
      (resolve_prince rs pid (some tid) r).1.events =
        rs.events ++ [.discard tid c "prince", .draw tid d (some "prince")]) ∧
    (c ≠ .PRINCESS → rs.deck = [] → rs.burned = [] →
      find_player (resolve_prince rs pid (some tid) r).1 tid =
        some { t with hand := [], discard := t.discard ++ [c] } ∧
      (resolve_prince rs pid (some tid) r).1.deck = [] ∧
      (resolve_prince rs pid (some tid) r).1.burned = [] ∧
      (resolve_prince rs pid (some tid) r).1.events =
        rs.events ++ [.discard tid c "prince"]) ∧
    (resolve_prince rs pid (some tid) r).2 = r := by
  have hlast : t.hand.getLast? = some c := by rw [hh]; rfl
  have hfpt : find_player (emit (upd rs tid
      (fun q => { q with hand := q.hand.dropLast, discard := q.discard ++ [c] }))
      (Event.discard tid c "prince")) tid =
      some { t with hand := t.hand.dropLast, discard := t.discard ++ [c] } := by
    rw [find_player_emit]
    exact find_player_upd_self rs tid _ t (fun q => rfl) hft
  refine ⟨?_, ?_, ?_, ?_, ?_⟩
  · intro hc
    have hrw : resolve_prince rs pid (some tid) r =
        (eliminate_player (emit (upd rs tid
          (fun q => { q with hand := q.hand.dropLast, discard := q.discard ++ [c] }))
          (Event.discard tid c "prince")) tid "prince_princess", r) := by
      simp [resolve_prince, hft, hlast, hc]
    obtain ⟨hd1, hb1, _, _, hev1, hself1, _⟩ :=
      eliminate_player_spec _ tid "prince_princess"
        { t with hand := t.hand.dropLast, discard := t.discard ++ [c] } hfpt het
    rw [hrw]
    refine ⟨?_, ?_, ?_, ?_⟩
    · rw [hself1]
      simp [hh]
    · rw [hd1]; rfl
    · rw [hb1]; rfl
    · rw [hev1]
      simp [hh, emit, upd]
  · intro hc hd
    have hrw : resolve_prince rs pid (some tid) r =
        (emit (upd { emit (upd rs tid
            (fun q => { q with hand := q.hand.dropLast, discard := q.discard ++ [c] }))
            (Event.discard tid c "prince") with deck := rs.deck.dropLast } tid
          (fun q => { q with hand := q.hand ++ [d] })) (.draw tid d (some "prince")), r) := by
      simp [resolve_prince, hft, hlast, hc, hfpt, het, draw_replacement, hd,
        emit_deck, upd_deck, emit_burned, upd_burned]
    rw [hrw]
    have hf2 : find_player { emit (upd rs tid
        (fun q => { q with hand := q.hand.dropLast, discard := q.discard ++ [c] }))
        (Event.discard tid c "prince") with deck := rs.deck.dropLast } tid =
        some { t with hand := t.hand.dropLast, discard := t.discard ++ [c] } := hfpt
    refine ⟨?_, rfl, rfl, ?_⟩
    · rw [find_player_emit]
      have hstep := find_player_upd_self _ tid
        (fun q => { q with hand := q.hand ++ [d] }) _ (fun q => rfl) hf2
      rw [hstep]
      simp [hh]
    · simp [hh, emit, upd]
  · intro hc hdeck hd
    have hrw : resolve_prince rs pid (some tid) r =
        (emit (upd { emit (upd rs tid
            (fun q => { q with hand := q.hand.dropLast, discard := q.discard ++ [c] }))
            (Event.discard tid c "prince") with burned := rs.burned.dropLast } tid
          (fun q => { q with hand := q.hand ++ [d] })) (.draw tid d (some "prince")), r) := by
      simp [resolve_prince, hft, hlast, hc, hfpt, het, draw_replacement, hdeck, hd,
        emit_deck, upd_deck, emit_burned, upd_burned]
    rw [hrw]
    have hf2 : find_player { emit (upd rs tid
        (fun q => { q with hand := q.hand.dropLast, discard := q.discard ++ [c] }))
        (Event.discard tid c "prince") with burned := rs.burned.dropLast } tid =
        some { t with hand := t.hand.dropLast, discard := t.discard ++ [c] } := hfpt
    refine ⟨?_, ?_, rfl, ?_⟩
    · rw [find_player_emit]
      have hstep := find_player_upd_self _ tid
        (fun q => { q with hand := q.hand ++ [d] }) _ (fun q => rfl) hf2
      rw [hstep]
      simp [hh]
    · simp [upd, emit, hdeck]
    · simp [hh, emit, upd]
  · intro hc hdeck hburn
    have hrw : resolve_prince rs pid (some tid) r =
        (emit (upd rs tid
          (fun q => { q with hand := q.hand.dropLast, discard := q.discard ++ [c] }))
          (Event.discard tid c "prince"), r) := by
      simp [resolve_prince, hft, hlast, hc, hfpt, het, draw_replacement, hdeck, hburn,
        emit_deck, upd_deck, emit_burned, upd_burned]
    rw [hrw]
    refine ⟨?_, ?_, ?_, ?_⟩
    · rw [hfpt]
      simp [hh]
    · simp [upd, emit, hdeck]
    · simp [upd, emit, hburn]
    · simp [emit, upd]
  · by_cases hc : c = CardType.PRINCESS
    · simp [resolve_prince, hft, hlast, hc]
    · cases hdl : rs.deck.getLast? with
      | some d' =>
        simp [resolve_prince, hft, hlast, hc, hfpt, het, draw_replacement, hdl,
          emit_deck, upd_deck, emit_burned, upd_burned]
      | none =>
        cases hbl : rs.burned.getLast? with
        | some d' =>
          simp [resolve_prince, hft, hlast, hc, hfpt, het, draw_replacement, hdl, hbl,
            emit_deck, upd_deck, emit_burned, upd_burned]
        | none =>
          simp [resolve_prince, hft, hlast, hc, hfpt, het, draw_replacement, hdl, hbl,
            emit_deck, upd_deck, emit_burned, upd_burned]

/-- Witness for C5: Prince on a Priest holder with a non-empty deck
discards the Priest and draws the deck's top card as replacement. -/
theorem c5_witness :
    find_player (resolve_prince rsC5 0 (some 1) ⟨[]⟩).1 1 =
      some { id := 1, name := "bob", hand := [.BARON], discard := [.PRIEST] } ∧
    (resolve_prince rsC5 0 (some 1) ⟨[]⟩).1.deck = [] ∧
    (resolve_prince rsC5 0 (some 1) ⟨[]⟩).1.burned = [.KING] ∧
    (resolve_prince rsC5 0 (some 1) ⟨[]⟩).1.events =
      [.discard 1 .PRIEST "prince", .draw 1 .BARON (some "prince")] := by
  have h := c5_prince_effect rsC5 0 1 ⟨[]⟩
    { id := 1, name := "bob", hand := [.PRIEST] } .PRIEST .BARON (by decide) rfl rfl
  exact h.2.1 (by decide) rfl

/-- C8 counterexample: `setup_round` does not consume `nextStartPlayerId` —
after a setup that started from `nextStartPlayerId = some 1`, the game still
has `nextStartPlayerId = some 1` (the start index was taken from it). -/
theorem c8_counterexample :
    (setup_round gC8 ⟨[]⟩ none).map (fun x => x.1.next_start_player_id) = some (some 1) ∧
    (setup_round gC8 ⟨[]⟩ none).map (fun x => x.2.1.current_player_idx) = some 1 :=
  ⟨rfl, rfl⟩

/-- C8 (amended): `setup_round` picks the start index from
`nextStartPlayerId` when set (the first matching player's index, 0 when no
player matches) and by `randrange` over the players otherwise, but it
leaves `nextStartPlayerId` unchanged rather than consuming it. -/
theorem c8_start_player_choice (g : GameState) (r : Rng) (s? : Option SetupConfig)
    (g' : GameState) (rs : RoundState) (r' : Rng)
    (h : setup_round g r s? = some (g', rs, r')) :
    g'.next_start_player_id = g.next_start_player_id ∧
    (∀ nid, g.next_start_player_id = some nid →
      rs.current_player_idx = (rs.players.findIdx? (fun p => p.id == nid)).getD 0 ∧
      r' = (build_deck r).2) ∧
    (g.next_start_player_id = none →
      rs.current_player_idx = ((build_deck r).2.randrange rs.players.length).1 ∧
      r' = ((build_deck r).2.randrange rs.players.length).2) := by
  simp only [setup_round] at h
  repeat' split at h
  any_goals exact Option.noConfusion h
  all_goals
    injection h with h2
  all_goals
    injection h2 with hg hrest
  all_goals
    injection hrest with hrs hr
  all_goals subst hg
  all_goals subst hrs
  all_goals subst hr
  all_goals
    refine ⟨rfl, ?_, ?_⟩
  all_goals
    first
      | (intro nid hnid; simp [choose_start_player_index, hnid, emit])
      | (intro hnone; simp [choose_start_player_index, hnone, emit])

/-- Witness for the amended C8 at a concrete two-player game with
`nextStartPlayerId = some 1`. -/
theorem c8_witness :
    gC8'.next_start_player_id = gC8.next_start_player_id ∧
    rsC8'.current_player_idx = (rsC8'.players.findIdx? (fun p => p.id == 1)).getD 0 ∧
    rC8' = (build_deck ⟨[]⟩).2 := by
  have h := c8_start_player_choice gC8 ⟨[]⟩ none gC8' rsC8' rC8' rfl
  exact ⟨h.1, (h.2.1 1 rfl).1, (h.2.1 1 rfl).2⟩

/-! Multiset toolkit for the conservation invariant (C1). -/

theorem ofList_set (a x : CardType) :
    ∀ (l : List CardType) (n : Nat), l[n]? = some x →
      ((l.set n a : List CardType) : Multiset CardType) + {x} =
        (l : Multiset CardType) + {a} := by
  have hc : ∀ (s : Multiset CardType) (c : CardType), s + {c} = c ::ₘ s := by
    intro s c
    rw [add_comm, Multiset.singleton_add]
  intro l
  induction l with
  | nil => intro n h; simp at h
  | cons b t ih =>
    intro n h
    cases n with
    | zero =>
      simp only [List.getElem?_cons_zero, Option.some.injEq] at h
      subst h
      rw [List.set_cons_zero, hc, hc, ← Multiset.cons_coe, ← Multiset.cons_coe,
        Multiset.cons_swap]
    | succ m =>
      simp only [List.getElem?_cons_succ] at h
      rw [List.set_cons_succ, ← Multiset.cons_coe, ← Multiset.cons_coe,
        Multiset.cons_add, Multiset.cons_add, ih m h]

theorem listSwap_coe (l : List CardType) (i j : Nat) :
    ((listSwap l i j : List CardType) : Multiset CardType) = (l : Multiset CardType) := by
  unfold listSwap
  cases hi : l[i]? with
  | none => rfl
  | some x =>
    cases hj : l[j]? with
    | none => rfl
    | some y =>
      have h1 := ofList_set y x l i hi
      have hj' : (l.set i y)[j]? = some y := by
        by_cases hij : i = j
        · subst hij
          have : i < l.length := (List.getElem?_eq_some.mp hi).1
          rw [List.getElem?_set_self' ]
          rw [hi]
          rfl
        · rw [List.getElem?_set_ne hij]
          exact hj
      have h2 := ofList_set x y (l.set i y) j hj'
      have h3 : ((l.set i y).set j x : Multiset CardType) + {y} =
          (l : Multiset CardType) + {y} := by
        rw [h2, h1]
      exact add_right_cancel h3

theorem shuffleAux_coe :
    ∀ (fuel : Nat) (a : List CardType) (r : Rng),
      (((shuffleAux fuel (a, r)).1 : List CardType) : Multiset CardType) =
        (a : Multiset CardType) := by
  intro fuel
  induction fuel with
  | zero => intro a r; rfl
  | succ n ih =>
    intro a r
    simp only [shuffleAux]
    rw [ih]
    exact listSwap_coe a (n + 1) (r.randrange (n + 2)).1

theorem build_deck_coe (r : Rng) :
    (((build_deck r).1 : List CardType) : Multiset CardType) = fullDeck := by
  unfold build_deck Rng.shuffle
  exact shuffleAux_coe _ _ _

theorem popTop_coe (l l' : List CardType) (c : CardType) (h : popTop l = some (c, l')) :
    (l : Multiset CardType) = (l' : Multiset CardType) + {c} := by
  unfold popTop at h
  cases hl : l.getLast? with
  | none => rw [hl] at h; exact Option.noConfusion h
  | some c0 =>
    rw [hl] at h
    injection h with h
    injection h with h1 h2
    subst h2
    subst h1
    have hap : l.dropLast ++ [c0] = l := List.dropLast_append_getLast? c0 hl
    have hco : (l : Multiset CardType) = ↑(l.dropLast ++ [c0]) := by rw [hap]
    rw [hco, ← Multiset.coe_singleton, Multiset.coe_add]

theorem popN_coe :
    ∀ (n : Nat) (l cs l' : List CardType), popN l n = some (cs, l') →
      (l : Multiset CardType) = (l' : Multiset CardType) + (cs : Multiset CardType) := by
  intro n
  induction n with
  | zero =>
    intro l cs l' h
    injection h with h
    injection h with h1 h2
    subst h1
    subst h2
    simp
  | succ m ih =>
    intro l cs l' h
    simp only [popN] at h
    rcases hp : popTop l with _ | ⟨c1, l1⟩
    · rw [hp] at h; exact Option.noConfusion h
    · rw [hp] at h
      dsimp only at h
      rcases hq : popN l1 m with _ | ⟨cs1, l2⟩
      · rw [hq] at h; exact Option.noConfusion h
      · rw [hq] at h
        dsimp only at h
        injection h with h
        injection h with h1 h2
        subst h1
        subst h2
        have e1 := popTop_coe l l1 c1 hp
        have e2 := ih l1 cs1 l2 hq
        rw [e1, e2, ← Multiset.cons_coe, ← Multiset.singleton_add]
        simp [← Multiset.coe_add, add_comm, add_left_comm, add_assoc]

theorem dealOne_coe :
    ∀ (ps : List PlayerState) (deck : List CardType) (ps' : List PlayerState)
      (deck' : List CardType), dealOne ps deck = some (ps', deck') →
      (deck : Multiset CardType) + (ps.map playerCards).sum =
        (deck' : Multiset CardType) + (ps'.map playerCards).sum := by
  intro ps
  induction ps with
  | nil =>
    intro deck ps' deck' h
    injection h with h
    injection h with h1 h2
    subst h1
    subst h2
    rfl
  | cons p rest ih =>
    intro deck ps' deck' h
    simp only [dealOne] at h
    rcases hp : popTop deck with _ | ⟨c1, deck1⟩
    · rw [hp] at h; exact Option.noConfusion h
    · rw [hp] at h
      dsimp only at h
      rcases hq : dealOne rest deck1 with _ | ⟨rest1, deck2⟩
      · rw [hq] at h; exact Option.noConfusion h
      · rw [hq] at h
        dsimp only at h
        injection h with h
        injection h with h1 h2
        subst h1
        subst h2
        have e1 := popTop_coe deck deck1 c1 hp
        have e2 := ih deck1 rest1 deck2 hq
        simp only [List.map_cons, List.sum_cons]
        have hpc : playerCards { p with hand := p.hand ++ [c1] } =
            playerCards p + {c1} := by
          simp only [playerCards]
          rw [← Multiset.coe_singleton]
          simp [← Multiset.coe_add, add_comm, add_left_comm, add_assoc]
        rw [hpc, e1]
        calc (deck1 : Multiset CardType) + {c1} + (playerCards p + (rest.map playerCards).sum)
            = ((deck1 : Multiset CardType) + (rest.map playerCards).sum) + ({c1} + playerCards p) := by
              simp [add_comm, add_left_comm, add_assoc]
          _ = ((deck2 : Multiset CardType) + (rest1.map playerCards).sum) + ({c1} + playerCards p) := by
              rw [e2]
          _ = (deck2 : Multiset CardType) + (playerCards p + {c1} + (rest1.map playerCards).sum) := by
              simp [add_comm, add_left_comm, add_assoc]

theorem sum_update_found (pid : Nat) (f : PlayerState → PlayerState) :
    ∀ (ps : List PlayerState) (p : PlayerState),
      ps.find? (fun q => q.id == pid) = some p →
      ((update_player ps pid f).map playerCards).sum + playerCards p =
        (ps.map playerCards).sum + playerCards (f p) := by
  intro ps
  induction ps with
  | nil => intro p h; simp at h
  | cons a t ih =>
    intro p h
    cases hb : (a.id == pid) with
    | true =>
      simp only [List.find?_cons, hb] at h
      injection h with h
      subst h
      simp only [update_player, hb, if_true, List.map_cons, List.sum_cons]
      simp [add_comm, add_left_comm, add_assoc]
    | false =>
      simp only [List.find?_cons, hb] at h
      simp only [update_player, hb, Bool.false_eq_true, if_false, List.map_cons,
        List.sum_cons]
      have := ih p h
      rw [add_assoc, this]
      simp [add_comm, add_left_comm, add_assoc]

theorem sum_update_inv (pid : Nat) (f : PlayerState → PlayerState)
    (hpc : ∀ q, playerCards (f q) = playerCards q) :
    ∀ ps : List PlayerState,
      ((update_player ps pid f).map playerCards).sum = (ps.map playerCards).sum := by
  intro ps
  induction ps with
  | nil => rfl
  | cons a t ih =>
    cases hb : (a.id == pid) with
    | true => simp [update_player, hb, hpc]
    | false => simp [update_player, hb, ih]

theorem roundCards_emit (rs : RoundState) (e : Event) :
    roundCards (emit rs e) = roundCards rs := rfl

theorem roundCards_upd_eq (rs : RoundState) (pid : Nat) (f : PlayerState → PlayerState)
    (p : PlayerState) (hf : find_player rs pid = some p) :
    roundCards (upd rs pid f) + playerCards p = roundCards rs + playerCards (f p) := by
  have h := sum_update_found pid f rs.players p hf
  simp only [roundCards, upd]
  rw [add_assoc, h, ← add_assoc]

theorem roundCards_upd_of_pc_eq (rs : RoundState) (pid : Nat)
    (f : PlayerState → PlayerState) (p : PlayerState)
    (hf : find_player rs pid = some p) (hpc : playerCards (f p) = playerCards p) :
    roundCards (upd rs pid f) = roundCards rs := by
  have h := roundCards_upd_eq rs pid f p hf
  rw [hpc] at h
  exact add_right_cancel h

theorem roundCards_upd_inv (rs : RoundState) (pid : Nat)
    (f : PlayerState → PlayerState) (hpc : ∀ q, playerCards (f q) = playerCards q) :
    roundCards (upd rs pid f) = roundCards rs := by
  simp only [roundCards, upd]
  rw [sum_update_inv pid f hpc]

theorem pc_pop_discard (p : PlayerState) (c : CardType) (h : p.hand.getLast? = some c) :
    playerCards { p with hand := p.hand.dropLast, discard := p.discard ++ [c] } =
      playerCards p := by
  simp only [playerCards]
  have hap : p.hand.dropLast ++ [c] = p.hand := List.dropLast_append_getLast? c h
  have hco : (p.hand : Multiset CardType) = ↑(p.hand.dropLast ++ [c]) := by rw [hap]
  rw [hco]
  simp [← Multiset.coe_add, add_comm, add_left_comm, add_assoc]

theorem pc_push (p : PlayerState) (c : CardType) :
    playerCards { p with hand := p.hand ++ [c] } = playerCards p + {c} := by
  simp only [playerCards]
  rw [← Multiset.coe_singleton]
  simp [← Multiset.coe_add, add_comm, add_left_comm, add_assoc]

theorem roundCards_deck_pop (rs : RoundState) (d : CardType)
    (h : rs.deck.getLast? = some d) :
    roundCards { rs with deck := rs.deck.dropLast } + {d} = roundCards rs := by
  simp only [roundCards]
  have hap : rs.deck.dropLast ++ [d] = rs.deck := List.dropLast_append_getLast? d h
  have hco : (rs.deck : Multiset CardType) = ↑(rs.deck.dropLast ++ [d]) := by rw [hap]
  rw [hco]
  simp [← Multiset.coe_add, add_comm, add_left_comm, add_assoc]

theorem roundCards_burned_pop (rs : RoundState) (d : CardType)
    (h : rs.burned.getLast? = some d) :
    roundCards { rs with burned := rs.burned.dropLast } + {d} = roundCards rs := by
  simp only [roundCards]
  have hap : rs.burned.dropLast ++ [d] = rs.burned := List.dropLast_append_getLast? d h
  have hco : (rs.burned : Multiset CardType) = ↑(rs.burned.dropLast ++ [d]) := by rw [hap]
  rw [hco]
  simp [← Multiset.coe_add, add_comm, add_left_comm, add_assoc]

theorem roundCards_upd_push (rs : RoundState) (tid : Nat) (t : PlayerState) (c : CardType)
    (hf : find_player rs tid = some t) :
    roundCards (upd rs tid (fun q => { q with hand := q.hand ++ [c] })) =
      roundCards rs + {c} := by
  have h := roundCards_upd_eq rs tid (fun q => { q with hand := q.hand ++ [c] }) t hf
  rw [pc_push] at h
  rw [← add_assoc, add_right_comm] at h
  exact add_right_cancel h

theorem eliminate_preserves (rs : RoundState) (pid : Nat) (reason : String) :
    roundCards (eliminate_player rs pid reason) = roundCards rs := by
  cases hf : find_player rs pid with
  | none => simp [eliminate_player, hf]
  | some p =>
    simp only [eliminate_player, hf]
    cases heb : p.eliminated with
    | true => simp
    | false =>
      simp only [Bool.false_eq_true, if_false]
      cases hlast : p.hand.getLast? with
      | none =>
        simp only [hlast]
        rw [roundCards_emit]
        exact roundCards_upd_inv rs pid _ (fun q => by simp [playerCards])
      | some c =>
        simp only [hlast]
        rw [roundCards_emit, roundCards_emit]
        have hf1 : find_player (upd rs pid
            (fun q => { q with eliminated := true, protected' := false })) pid =
            some { p with eliminated := true, protected' := false } :=
          find_player_upd_self rs pid _ p (fun q => rfl) hf
        rw [roundCards_upd_of_pc_eq _ pid _ { p with eliminated := true, protected' := false }
          hf1 (pc_pop_discard _ c hlast)]
        exact roundCards_upd_inv rs pid _ (fun q => by simp [playerCards])

theorem resolve_guard_preserves (rs : RoundState) (pid : Nat) (tid? : Option Nat)
    (guess? : Option CardType) :
    roundCards (resolve_guard rs pid tid? guess?) = roundCards rs := by
  rcases tid? with _ | tid
  · rfl
  rcases guess? with _ | g
  · rfl
  simp only [resolve_guard]
  cases hf : find_player (emit rs (.guard_guess pid tid g)) tid with
  | none =>
    simp only [hf]
    rfl
  | some target =>
    simp only [hf]
    by_cases hg : target.hand.head? = some g
    · simp only [hg, if_pos]
      rw [eliminate_preserves, roundCards_emit]
    · simp only [hg, if_neg, if_false]
      rw [roundCards_emit]

theorem resolve_priest_preserves (rs : RoundState) (pid : Nat) (tid? : Option Nat) :
    roundCards (resolve_priest rs pid tid?) = roundCards rs := by
  rcases tid? with _ | tid
  · rfl
  simp only [resolve_priest]
  cases hf : find_player rs tid with
  | none => rfl
  | some target =>
    dsimp only
    cases hh : target.hand.head? <;> rfl

theorem resolve_baron_preserves (rs : RoundState) (pid : Nat) (tid? : Option Nat) :
    roundCards (resolve_baron rs pid tid?) = roundCards rs := by
  rcases tid? with _ | tid
  · rfl
  simp only [resolve_baron]
  cases hfp : find_player rs pid with
  | none => rfl
  | some player =>
    cases hft : find_player rs tid with
    | none => rfl
    | some target =>
      dsimp only
      cases hhp : player.hand.head? with
      | none => rfl
      | some pc =>
        cases hht : target.hand.head? with
        | none => rfl
        | some tc =>
          dsimp only
          by_cases h1 : tc.val < pc.val
          · simp only [h1, if_pos]
            rw [eliminate_preserves, roundCards_emit]
          · simp only [h1, if_neg, if_false]
            by_cases h2 : pc.val < tc.val
            · simp only [h2, if_pos]
              rw [eliminate_preserves, roundCards_emit]
            · simp only [h2, if_neg, if_false]
              rw [roundCards_emit]

theorem resolve_king_preserves (rs : RoundState) (pid : Nat) (tid? : Option Nat) :
    roundCards (resolve_king rs pid tid?) = roundCards rs := by
  rcases tid? with _ | tid
  · rfl
  simp only [resolve_king]
  cases hfp : find_player rs pid with
  | none => rfl
  | some player =>
    cases hft : find_player rs tid with
    | none => rfl
    | some target =>
      dsimp only
      split
      · rfl
      · rw [roundCards_emit]
        by_cases hpt : pid = tid
        · subst hpt
          rw [hfp] at hft
          injection hft with hq
          subst hq
          have h1 : find_player (upd rs pid (fun q => { q with hand := player.hand })) pid =
              some { player with hand := player.hand } :=
            find_player_upd_self rs pid _ player (fun q => rfl) hfp
          rw [roundCards_upd_of_pc_eq _ pid _ { player with hand := player.hand } h1
            (by simp [playerCards])]
          exact roundCards_upd_of_pc_eq rs pid _ player hfp (by simp [playerCards])
        · have h1 : find_player (upd rs pid (fun q => { q with hand := target.hand })) tid =
              some target := by
            rw [find_player_upd_other rs tid pid
              (fun q => { q with hand := target.hand }) (fun q => rfl) (Ne.symm hpt)]
            exact hft
          have e1 := roundCards_upd_eq rs pid
            (fun q => { q with hand := target.hand }) player hfp
          have e2 := roundCards_upd_eq (upd rs pid (fun q => { q with hand := target.hand }))
            tid (fun q => { q with hand := player.hand }) target h1
          have hsum : playerCards { player with hand := target.hand } +
              playerCards { target with hand := player.hand } =
              playerCards player + playerCards target := by
            simp only [playerCards]
            abel
          have key : roundCards (upd (upd rs pid (fun q => { q with hand := target.hand }))
              tid (fun q => { q with hand := player.hand })) +
              (playerCards target + playerCards player) =
              roundCards rs + (playerCards target + playerCards player) := by
            rw [← add_assoc, e2, add_right_comm, e1, add_assoc, hsum,
              add_comm (playerCards player) (playerCards target)]
          exact add_right_cancel key

theorem resolve_prince_preserves (rs : RoundState) (pid : Nat) (tid? : Option Nat)
    (r : Rng) :
    roundCards (resolve_prince rs pid tid? r).1 = roundCards rs := by
  rcases tid? with _ | tid
  · rfl
  cases hft : find_player rs tid with
  | none => simp [resolve_prince, hft]
  | some t =>
    simp only [resolve_prince, hft]
    cases hlast : t.hand.getLast? with
    | none =>
      dsimp only
      simp only [hft]
      cases heb : t.eliminated with
      | true => simp [heb]
      | false =>
        simp only [heb, Bool.false_eq_true, if_false]
        cases hdl : rs.deck.getLast? with
        | some d =>
          simp only [draw_replacement, hdl]
          rw [roundCards_emit,
            roundCards_upd_push { rs with deck := rs.deck.dropLast } tid t d
              (show find_player { rs with deck := rs.deck.dropLast } tid = some t from hft)]
          exact roundCards_deck_pop rs d hdl
        | none =>
          simp only [draw_replacement, hdl]
          cases hbl : rs.burned.getLast? with
          | some d =>
            simp only [hbl]
            rw [roundCards_emit,
              roundCards_upd_push { rs with burned := rs.burned.dropLast } tid t d
                (show find_player { rs with burned := rs.burned.dropLast } tid = some t from hft)]
            exact roundCards_burned_pop rs d hbl
          | none => simp [hbl]
    | some c =>
      dsimp only
      have hpop : find_player (emit (upd rs tid (fun q =>
          { q with hand := q.hand.dropLast, discard := q.discard ++ [c] }))
          (Event.discard tid c "prince")) tid =
          some { t with hand := t.hand.dropLast, discard := t.discard ++ [c] } := by
        rw [find_player_emit]
        exact find_player_upd_self rs tid _ t (fun q => rfl) hft
      have hRC : roundCards (emit (upd rs tid (fun q =>
          { q with hand := q.hand.dropLast, discard := q.discard ++ [c] }))
          (Event.discard tid c "prince")) = roundCards rs := by
        rw [roundCards_emit]
        exact roundCards_upd_of_pc_eq rs tid _ t hft (pc_pop_discard t c hlast)
      set X := emit (upd rs tid (fun q =>
        { q with hand := q.hand.dropLast, discard := q.discard ++ [c] }))
        (Event.discard tid c "prince") with hX
      by_cases hc : c = CardType.PRINCESS
      · rw [if_pos hc]
        simp [eliminate_preserves, hRC]
      · rw [if_neg hc]
        simp only [Bool.false_eq_true, if_false]
        rw [hpop]
        dsimp only
        cases heb2 : t.eliminated with
        | true => simp [heb2, hRC]
        | false =>
          simp only [heb2, Bool.false_eq_true, if_false]
          cases hdl : X.deck.getLast? with
          | some d =>
            simp only [draw_replacement, hdl]
            rw [roundCards_emit]
            rw [roundCards_upd_push { X with deck := X.deck.dropLast } tid
              { t with hand := t.hand.dropLast, discard := t.discard ++ [c] } d
              (show find_player { X with deck := X.deck.dropLast } tid =
                some { t with hand := t.hand.dropLast, discard := t.discard ++ [c] } from hpop)]
            rw [roundCards_deck_pop X d hdl]
            exact hRC
          | none =>
            simp only [draw_replacement, hdl]
            cases hbl : X.burned.getLast? with
            | some d =>
              simp only [hbl]
              rw [roundCards_emit]
              rw [roundCards_upd_push { X with burned := X.burned.dropLast } tid
                { t with hand := t.hand.dropLast, discard := t.discard ++ [c] } d
                (show find_player { X with burned := X.burned.dropLast } tid =
                  some { t with hand := t.hand.dropLast, discard := t.discard ++ [c] } from hpop)]
              rw [roundCards_burned_pop X d hbl]
              exact hRC
            | none =>
              simp only [hbl]
              exact hRC

theorem validate_checks_none_mem (rs : RoundState) (p : PlayerState) (a : Action)
    (h : validate_checks rs p a = none) : a.card ∈ p.hand := by
  by_cases hm : a.card ∈ p.hand
  · exact hm
  · exfalso
    cases hel : p.eliminated <;> simp [validate_checks, hm, hel] at h

theorem apply_body_preserves (rs : RoundState) (a : Action) (r : Rng)
    (player : PlayerState) (target? : Option PlayerState)
    (hf : find_player rs player.id = some player)
    (hmem : a.card ∈ player.hand) :
    roundCards (apply_action_body rs a r player target?).1 = roundCards rs := by
  have hpc : playerCards { player with hand := player.hand.erase a.card, discard := player.discard ++ [a.card] } = playerCards player := by
    simp only [playerCards]
    have hperm : List.Perm player.hand (a.card :: player.hand.erase a.card) :=
      List.perm_cons_erase hmem
    have hco : (player.hand : Multiset CardType) =
        ↑(a.card :: player.hand.erase a.card) := Quot.sound hperm
    rw [hco, ← Multiset.cons_coe, ← Multiset.singleton_add]
    simp [← Multiset.coe_add, Multiset.coe_singleton, add_comm, add_left_comm, add_assoc]
  have hstep : roundCards (emit (upd rs player.id (fun q =>
      { q with hand := q.hand.erase a.card, discard := q.discard ++ [a.card] }))
      (Event.play player.id a.card)) = roundCards rs := by
    rw [roundCards_emit]
    exact roundCards_upd_of_pc_eq rs player.id _ player hf hpc
  simp only [apply_action_body]
  cases hcard : a.card
  all_goals rw [hcard] at hstep
  case GUARD => rw [resolve_guard_preserves, hstep]
  case PRIEST => rw [resolve_priest_preserves, hstep]
  case BARON => rw [resolve_baron_preserves, hstep]
  case HANDMAID =>
    rw [roundCards_emit]
    rw [roundCards_upd_inv _ player.id _ (fun q => by simp [playerCards])]
    exact hstep
  case PRINCE => rw [resolve_prince_preserves, hstep]
  case KING => rw [resolve_king_preserves, hstep]
  case COUNTESS => rw [roundCards_emit, hstep]
  case PRINCESS => rw [eliminate_preserves, hstep]

theorem apply_preserves (rs : RoundState) (a : Action) (r : Rng) (rs' : RoundState)
    (r' : Rng) (err : Option String)
    (h : apply_action_run rs a r = (rs', r', err)) : roundCards rs' = roundCards rs := by
  simp only [apply_action_run] at h
  cases hv : validate_action rs a with
  | error e =>
    rw [hv] at h
    injection h with h1 h2
    rw [← h1]
  | ok o =>
    rw [hv] at h
    cases o with
    | some reason =>
      dsimp only at h
      injection h with h1 h2
      rw [← h1]
    | none =>
      dsimp only at h
      cases hfp : find_player rs a.player_id with
      | none =>
        rw [hfp] at h
        injection h with h1 h2
        rw [← h1]
      | some player =>
        rw [hfp] at h
        dsimp only at h
        have hmem : a.card ∈ player.hand := by
          have : validate_checks rs player a = none := by
            simpa only [validate_action, hfp, Except.ok.injEq] using hv
          exact validate_checks_none_mem rs player a this
        have hpid : player.id = a.player_id := find_player_id rs a.player_id player hfp
        have hf2 : find_player rs player.id = some player := by rw [hpid]; exact hfp
        cases hti : a.target_id with
        | none =>
          rw [hti] at h
          injection h with h1 h2
          rw [← h1]
          exact apply_body_preserves rs a r player none hf2 hmem
        | some tid =>
          rw [hti] at h
          dsimp only at h
          cases hft : find_player rs tid with
          | none =>
            rw [hft] at h
            injection h with h1 h2
            rw [← h1]
          | some target =>
            rw [hft] at h
            dsimp only at h
            injection h with h1 h2
            rw [← h1]
            exact apply_body_preserves rs a r player (some target) hf2 hmem

theorem start_turn_preserves (rs : RoundState) (pid : Nat) (r : Rng) (rs' : RoundState)
    (b : Bool) (r' : Rng) (h : start_turn rs pid r = .ok (rs', b, r')) :
    roundCards rs' = roundCards rs := by
  simp only [start_turn] at h
  cases hf : find_player rs pid with
  | none => rw [hf] at h; exact Except.noConfusion h
  | some p =>
    rw [hf] at h
    dsimp only at h
    cases hel : p.eliminated with
    | true => rw [hel] at h; simp at h
    | false =>
      rw [hel] at h
      simp only [Bool.false_eq_true, if_false] at h
      cases hprot : p.protected' with
      | false =>
        rw [hprot] at h
        simp only [Bool.false_eq_true, if_false] at h
        cases hdl : rs.deck.getLast? with
        | none =>
          rw [hdl] at h
          injection h with h1
          injection h1 with h1 h2
          rw [← h1, roundCards_emit]
        | some drawn =>
          rw [hdl] at h
          dsimp only at h
          injection h with h1
          injection h1 with h1 h2
          rw [← h1, roundCards_emit]
          rw [roundCards_upd_push { rs with deck := rs.deck.dropLast } pid p drawn
            (show find_player { rs with deck := rs.deck.dropLast } pid = some p from hf)]
          exact roundCards_deck_pop rs drawn hdl
      | true =>
        rw [hprot] at h
        simp only [if_true] at h
        have hf1 : find_player (emit (upd rs pid (fun q => { q with protected' := false }))
            (Event.protection_ended pid)) pid =
            some { p with protected' := false } := by
          rw [find_player_emit]
          exact find_player_upd_self rs pid _ p (fun q => rfl) hf
        have hrc1 : roundCards (emit (upd rs pid (fun q => { q with protected' := false }))
            (Event.protection_ended pid)) = roundCards rs := by
          rw [roundCards_emit]
          exact roundCards_upd_inv rs pid _ (fun q => by simp [playerCards])
        cases hdl : (emit (upd rs pid (fun q => { q with protected' := false }))
            (Event.protection_ended pid)).deck.getLast? with
        | none =>
          rw [hdl] at h
          injection h with h1
          injection h1 with h1 h2
          rw [← h1, roundCards_emit]
          exact hrc1
        | some drawn =>
          rw [hdl] at h
          dsimp only at h
          injection h with h1
          injection h1 with h1 h2
          rw [← h1, roundCards_emit]
          rw [roundCards_upd_push
            { emit (upd rs pid (fun q => { q with protected' := false }))
                (Event.protection_ended pid) with
              deck := (emit (upd rs pid (fun q => { q with protected' := false }))
                (Event.protection_ended pid)).deck.dropLast } pid
            { p with protected' := false } drawn
            (show find_player _ pid = some { p with protected' := false } from hf1)]
          rw [roundCards_deck_pop _ drawn hdl]
          exact hrc1

theorem award_preserves :
    ∀ (ids : List Nat) (rs : RoundState), roundCards (award ids rs) = roundCards rs := by
  intro ids
  induction ids with
  | nil => intro rs; rfl
  | cons wid rest ih =>
    intro rs
    simp only [award]
    cases hf : find_player rs wid with
    | none => exact ih rs
    | some p =>
      rw [ih, roundCards_emit]
      exact roundCards_upd_inv rs wid _ (fun q => by simp [playerCards])

theorem roundCards_round_over (rs : RoundState) :
    roundCards { rs with round_over := true } = roundCards rs := rfl

theorem finish_preserves (g : GameState) (rs : RoundState) (r : Rng)
    (winners : List PlayerState) (g' : GameState) (rs' : RoundState) (r' : Rng)
    (h : finish_round g rs r winners = some (g', rs', r')) :
    roundCards rs' = roundCards rs := by
  simp only [finish_round] at h
  have hbase : roundCards (award (winners.map (·.id))
      (emit { rs with round_over := true } (.round_end (winners.map (·.id))))) =
      roundCards rs := by
    rw [award_preserves, roundCards_emit]
    exact roundCards_round_over rs
  by_cases hw : winners.isEmpty
  · rw [if_pos hw] at h
    injection h with h1
    injection h1 with h1 h2
    injection h2 with h2 h3
    rw [← h2]
    exact hbase
  · rw [if_neg hw] at h
    cases hc : (r.choice (winners.map (·.id))).1 with
    | none =>
      rw [show r.choice (winners.map (·.id)) =
        (none, (r.choice (winners.map (·.id))).2) from by rw [← hc]] at h
      exact Option.noConfusion h
    | some nid =>
      rw [show r.choice (winners.map (·.id)) =
        (some nid, (r.choice (winners.map (·.id))).2) from by rw [← hc]] at h
      dsimp only at h
      injection h with h1
      injection h1 with h1 h2
      injection h2 with h2 h3
      rw [← h2]
      exact hbase

theorem check_preserves (g : GameState) (rs : RoundState) (r : Rng)
    (g' : GameState) (rs' : RoundState) (r' : Rng)
    (h : check_round_end g rs r = some (g', rs', r')) :
    roundCards rs' = roundCards rs := by
  simp only [check_round_end] at h
  by_cases hro : rs.round_over
  · rw [if_pos hro] at h
    injection h with h1
    injection h1 with h1 h2
    injection h2 with h2 h3
    rw [← h2]
  · rw [if_neg hro] at h
    by_cases hac : (rs.players.filter (fun p => !p.eliminated)).length ≤ 1
    · rw [if_pos hac] at h
      exact finish_preserves g rs r _ g' rs' r' h
    · rw [if_neg hac] at h
      by_cases hde : rs.deck.isEmpty
      · rw [if_pos hde] at h
        cases hd : determine_highest_hand (rs.players.filter (fun p => !p.eliminated)) with
        | none => rw [hd] at h; exact Option.noConfusion h
        | some winners =>
          rw [hd] at h
          exact finish_preserves g rs r winners g' rs' r' h
      · rw [if_neg hde] at h
        injection h with h1
        injection h1 with h1 h2
        injection h2 with h2 h3
        rw [← h2]

theorem advance_preserves (rs : RoundState) :
    roundCards (advance_turn rs) = roundCards rs := by
  simp only [advance_turn]
  by_cases hro : rs.round_over
  · rw [if_pos hro]
  · rw [if_neg hro]
    cases advance_aux rs.players rs.players.length rs.current_player_idx with
    | none => rfl
    | some i => rfl

theorem reset_players_sum (ps : List PlayerState) :
    ((ps.map (fun p => { p with hand := ([] : List CardType), discard := ([] : List CardType), protected' := false, eliminated := false })).map playerCards).sum = 0 := by
  induction ps with
  | nil => rfl
  | cons p rest ih =>
    simp only [List.map_cons, List.sum_cons]
    rw [ih]
    simp [playerCards]

theorem setup_conserves (g : GameState) (r : Rng) (s? : Option SetupConfig)
    (g' : GameState) (rs : RoundState) (r' : Rng)
    (h : setup_round g r s? = some (g', rs, r')) : roundCards rs = fullDeck := by
  simp only [setup_round] at h
  rcases hs : (match s? with
    | some s => some s
    | none => default_setup g.players.length) with _ | setup
  · rw [hs] at h; exact Option.noConfusion h
  rw [hs] at h
  dsimp only at h
  rcases h1 : popN (build_deck r).1 setup.burn_face_down with _ | ⟨burned, deck1⟩
  · rw [h1] at h; exact Option.noConfusion h
  rw [h1] at h
  dsimp only at h
  rcases h2 : popN deck1 setup.burn_face_up with _ | ⟨face_up, deck2⟩
  · rw [h2] at h; exact Option.noConfusion h
  rw [h2] at h
  dsimp only at h
  rcases h3 : dealOne (g.players.map (fun p =>
    { p with hand := [], discard := [], protected' := false, eliminated := false })) deck2
    with _ | ⟨players1, deck3⟩
  · rw [h3] at h; exact Option.noConfusion h
  rw [h3] at h
  dsimp only at h
  rcases h4 : players1.get? (choose_start_player_index g.next_start_player_id players1
      (build_deck r).2).1 with _ | starter
  · rw [h4] at h; exact Option.noConfusion h
  rw [h4] at h
  dsimp only at h
  have e1 := popN_coe setup.burn_face_down (build_deck r).1 burned deck1 h1
  have e2 := popN_coe setup.burn_face_up deck1 face_up deck2 h2
  have e3 := dealOne_coe _ deck2 players1 deck3 h3
  rw [reset_players_sum, add_zero] at e3
  have hfull := build_deck_coe r
  have hrc : (deck3 : Multiset CardType) + (burned : Multiset CardType)
      + (face_up : Multiset CardType) + (players1.map playerCards).sum = fullDeck := by
    rw [← hfull, e1, e2, e3]
    abel
  by_cases hfu : face_up.isEmpty
  · rw [if_pos hfu] at h
    injection h with h1'
    injection h1' with hg1 hrest
    injection hrest with hrs1 hr1
    rw [← hrs1]
    exact hrc
  · rw [if_neg hfu] at h
    injection h with h1'
    injection h1' with hg1 hrest
    injection hrest with hrs1 hr1
    rw [← hrs1]
    exact hrc

/-- C1: every round state reachable through the engine's operations carries
exactly the fixed 16-card multiset across deck, burned, face-up cards,
hands and discards — no operation creates, destroys or duplicates a card. -/
theorem c1_conservation (rs : RoundState) (h : Reachable rs) :
    roundCards rs = fullDeck := by
  induction h with
  | setup g r s? g' rs0 r' hsr => exact setup_conserves g r s? g' rs0 r' hsr
  | turn rs0 pid r rs' b r' hre hst ih =>
    rw [start_turn_preserves rs0 pid r rs' b r' hst]
    exact ih
  | act rs0 a r rs' r' err hre hap ih =>
    rw [apply_preserves rs0 a r rs' r' err hap]
    exact ih
  | check g rs0 r g' rs' r' hre hch ih =>
    rw [check_preserves g rs0 r g' rs' r' hch]
    exact ih
  | advance rs0 hre ih =>
    rw [advance_preserves rs0]
    exact ih

/-- Witness for C1: the state set up by a concrete two-player game is
reachable and carries the full 16-card multiset. -/
theorem c1_witness : roundCards rsC1 = fullDeck :=
  c1_conservation rsC1 (Reachable.setup gC1 rC1 none gC1' rsC1 rC1' (by decide))

/-! Lemmas for the round-end winner determination (C7). -/

theorem nat_max?_spec (l : List Nat) (m : Nat) (h : l.max? = some m) :
    m ∈ l ∧ ∀ x ∈ l, x ≤ m :=
  ⟨List.max?_mem (fun a b => max_choice a b) h,
   fun x hx => ((List.max?_le_iff (fun _ _ _ => max_le_iff) h).mp (le_refl m)) x hx⟩

theorem max?_of_ne_nil (l : List Nat) (h : l ≠ []) : ∃ m, l.max? = some m := by
  cases hmx : l.max? with
  | none => exact absurd (List.max?_eq_none_iff.mp hmx) h
  | some m => exact ⟨m, rfl⟩

/-- `_determine_highest_hand` computes exactly the spec's winner set: the
players with nonempty hand of maximum value, narrowed (when tied) to those
with maximum discard sum. -/
theorem determine_eq_spec (active : List PlayerState)
    (hne : active.filter (fun p => !p.hand.isEmpty) ≠ []) :
    determine_highest_hand active = some (c7_spec_winners active) := by
  have hmapne : (active.filter (fun p => !p.hand.isEmpty)).map hand_value ≠ [] := by
    simpa using hne
  obtain ⟨best, hbest⟩ := max?_of_ne_nil _ hmapne
  obtain ⟨hmem, hub⟩ := nat_max?_spec _ best hbest
  have hcand : active.filter (fun p => !p.hand.isEmpty && hand_value p == best) =
      active.filter (fun p => !p.hand.isEmpty &&
        active.all (fun q => q.hand.isEmpty || hand_value q ≤ hand_value p)) := by
    apply List.filter_congr
    intro p hp
    cases hph : p.hand.isEmpty with
    | true => simp [hph]
    | false =>
      simp only [hph, Bool.not_false, Bool.true_and]
      have hpin : hand_value p ∈ (active.filter (fun p => !p.hand.isEmpty)).map hand_value :=
        List.mem_map_of_mem _ (List.mem_filter.mpr ⟨hp, by simp [hph]⟩)
      cases heq : (hand_value p == best) with
      | true =>
        have hpb : hand_value p = best := by simpa using heq
        symm
        rw [List.all_eq_true]
        intro q hq
        cases hqh : q.hand.isEmpty with
        | true => simp [hqh]
        | false =>
          have hqin : hand_value q ∈
              (active.filter (fun p => !p.hand.isEmpty)).map hand_value :=
            List.mem_map_of_mem _ (List.mem_filter.mpr ⟨hq, by simp [hqh]⟩)
          simp only [hqh, Bool.false_or, decide_eq_true_eq]
          rw [hpb]
          exact hub _ hqin
      | false =>
        have hpb : hand_value p ≠ best := by simpa using heq
        have hplt : hand_value p < best := lt_of_le_of_ne (hub _ hpin) hpb
        obtain ⟨q0, hq0mem, hq0v⟩ := List.mem_map.mp hmem
        obtain ⟨hq0act, hq0h⟩ := List.mem_filter.mp hq0mem
        symm
        apply List.all_eq_false.mpr
        refine ⟨q0, hq0act, ?_⟩
        have hq0e : q0.hand.isEmpty = false := by simpa using hq0h
        simp only [hq0e, Bool.false_or, decide_eq_true_eq]
        rw [hq0v]
        exact not_le.mpr hplt
  simp only [determine_highest_hand, hbest]
  rw [hcand]
  simp only [c7_spec_winners]
  by_cases hlen : (active.filter (fun p => !p.hand.isEmpty &&
      active.all (fun q => q.hand.isEmpty || hand_value q ≤ hand_value p))).length ≤ 1
  · rw [if_pos hlen, if_pos hlen]
  · rw [if_neg hlen, if_neg hlen]
    have hCne : active.filter (fun p => !p.hand.isEmpty &&
        active.all (fun q => q.hand.isEmpty || hand_value q ≤ hand_value p)) ≠ [] := by
      intro hnil
      rw [hnil] at hlen
      simp at hlen
    have hCm : (active.filter (fun p => !p.hand.isEmpty &&
        active.all (fun q => q.hand.isEmpty || hand_value q ≤ hand_value p))).map
        discard_sum ≠ [] := by
      simpa using hCne
    obtain ⟨bd, hbd⟩ := max?_of_ne_nil _ hCm
    obtain ⟨hmemd, hubd⟩ := nat_max?_spec _ bd hbd
    simp only [hbd]
    congr 1
    apply List.filter_congr
    intro p hp
    cases heq : (discard_sum p == bd) with
    | true =>
      have hpb : discard_sum p = bd := by simpa using heq
      symm
      rw [List.all_eq_true]
      intro q hq
      simp only [decide_eq_true_eq]
      rw [hpb]
      exact hubd _ (List.mem_map_of_mem _ hq)
    | false =>
      have hpb : discard_sum p ≠ bd := by simpa using heq
      have hplt : discard_sum p < bd :=
        lt_of_le_of_ne (hubd _ (List.mem_map_of_mem _ hp)) hpb
      obtain ⟨q0, hq0mem, hq0v⟩ := List.mem_map.mp hmemd
      symm
      apply List.all_eq_false.mpr
      refine ⟨q0, hq0mem, ?_⟩
      simp only [decide_eq_true_eq]
      rw [hq0v]
      exact not_le.mpr hplt

theorem find?_of_mem_nodup :
    ∀ (ps : List PlayerState), (ps.map (·.id)).Nodup → ∀ p ∈ ps,
      ps.find? (fun q => q.id == p.id) = some p := by
  intro ps
  induction ps with
  | nil => intro _ p hp; simp at hp
  | cons a t ih =>
    intro hnd p hp
    simp only [List.map_cons, List.nodup_cons] at hnd
    obtain ⟨hna, hnt⟩ := hnd
    rcases List.mem_cons.mp hp with rfl | hpt
    · simp [List.find?_cons]
    · have hne : a.id ≠ p.id := by
        intro hEq
        exact hna (hEq ▸ List.mem_map_of_mem _ hpt)
      have hb : (a.id == p.id) = false := by simpa using hne
      simp only [List.find?_cons, hb]
      exact ih hnt p hpt

theorem award_spec :
    ∀ (W : List PlayerState) (rs : RoundState),
      (∀ w ∈ W, find_player rs w.id = some w) → (W.map (·.id)).Nodup →
      (award (W.map (·.id)) rs).events =
        rs.events ++ W.map (fun w => Event.token_awarded w.id (w.tokens + 1)) ∧
      (∀ w ∈ W, find_player (award (W.map (·.id)) rs) w.id =
        some { w with tokens := w.tokens + 1 }) ∧
      (∀ pid, pid ∉ W.map (·.id) →
        find_player (award (W.map (·.id)) rs) pid = find_player rs pid) ∧
      (award (W.map (·.id)) rs).round_over = rs.round_over := by
  intro W
  induction W with
  | nil =>
    intro rs _ _
    exact ⟨by simp [award], fun w hw => absurd hw (List.not_mem_nil w),
      fun pid _ => rfl, rfl⟩
  | cons w rest ih =>
    intro rs hfind hnd
    simp only [List.map_cons, List.nodup_cons] at hnd
    obtain ⟨hna, hnt⟩ := hnd
    have hfw : find_player rs w.id = some w := hfind w (List.mem_cons_self w rest)
    simp only [List.map_cons, award, hfw]
    have hfind1 : ∀ v ∈ rest, find_player (emit (upd rs w.id
        (fun q => { q with tokens := q.tokens + 1 }))
        (Event.token_awarded w.id (w.tokens + 1))) v.id = some v := by
      intro v hv
      have hvne : v.id ≠ w.id := by
        intro hEq
        exact hna (hEq ▸ List.mem_map_of_mem _ hv)
      rw [find_player_emit, find_player_upd_other rs v.id w.id
        (fun q => { q with tokens := q.tokens + 1 }) (fun q => rfl) hvne]
      exact hfind v (List.mem_cons_of_mem w hv)
    obtain ⟨ihev, ihself, ihother, ihro⟩ := ih (emit (upd rs w.id
      (fun q => { q with tokens := q.tokens + 1 }))
      (Event.token_awarded w.id (w.tokens + 1))) hfind1 hnt
    refine ⟨?_, ?_, ?_, ?_⟩
    · rw [ihev]
      simp [emit, upd_events]
    · intro v hv
      rcases List.mem_cons.mp hv with rfl | hvt
      · rw [ihother v.id hna, find_player_emit,
          find_player_upd_self rs v.id (fun q => { q with tokens := q.tokens + 1 }) v
            (fun q => rfl) hfw]
      · exact ihself v hvt
    · intro pid hpid
      simp only [List.map_cons, List.mem_cons] at hpid
      obtain ⟨hp1, hp2⟩ := not_or.mp hpid
      rw [ihother pid hp2, find_player_emit,
        find_player_upd_other rs pid w.id (fun q => { q with tokens := q.tokens + 1 })
          (fun q => rfl) hp1]
    · rw [ihro]
      rfl

theorem c7_spec_sublist (active : List PlayerState) :
    (c7_spec_winners active).Sublist active := by
  simp only [c7_spec_winners]
  by_cases h : (active.filter (fun p => !p.hand.isEmpty &&
      active.all (fun q => q.hand.isEmpty || hand_value q ≤ hand_value p))).length ≤ 1
  · rw [if_pos h]
    exact List.filter_sublist _
  · rw [if_neg h]
    exact (List.filter_sublist _).trans (List.filter_sublist _)

theorem choice_some (l : List Nat) (r : Rng) (h : l ≠ []) :
    ∃ nid r', Rng.choice r l = (some nid, r') := by
  simp only [Rng.choice, Rng.randrange]
  have hlen : 0 < l.length := List.length_pos.mpr h
  have hmod : r.next.1 % l.length < l.length := Nat.mod_lt _ hlen
  exact ⟨l.get ⟨r.next.1 % l.length, hmod⟩, r.next.2, by rw [List.get?_eq_get hmod]⟩

/-- C7: on a not-yet-over round with an empty deck and at least two active
players (at least one holding a card), `check_round_end` succeeds; the
winner set is exactly the active players whose single hand card has the
maximum value, narrowed on ties to those with the maximum discarded-value
sum; the `round_end` event lists exactly these winners, each winner gains
one token with one `token_awarded` event, and everyone else is untouched. -/
theorem c7_deck_exhausted_winners (g : GameState) (rs : RoundState) (r : Rng)
    (hro : rs.round_over = false)
    (hdeck : rs.deck = [])
    (hact : 2 ≤ (rs.players.filter (fun p => !p.eliminated)).length)
    (hhand : (rs.players.filter (fun p => !p.eliminated)).filter
      (fun p => !p.hand.isEmpty) ≠ [])
    (hnodup : (rs.players.map (·.id)).Nodup) :
    ∃ g' rs' r',
      check_round_end g rs r = some (g', rs', r') ∧
      determine_highest_hand (rs.players.filter (fun p => !p.eliminated)) =
        some (c7_spec_winners (rs.players.filter (fun p => !p.eliminated))) ∧
      rs'.round_over = true ∧
      rs'.events = rs.events ++
        [Event.round_end ((c7_spec_winners (rs.players.filter (fun p => !p.eliminated))).map (·.id))] ++
        (c7_spec_winners (rs.players.filter (fun p => !p.eliminated))).map
          (fun w => Event.token_awarded w.id (w.tokens + 1)) ∧
      (∀ w ∈ c7_spec_winners (rs.players.filter (fun p => !p.eliminated)),
        find_player rs' w.id = some { w with tokens := w.tokens + 1 }) ∧
      (∀ pid, pid ∉ (c7_spec_winners (rs.players.filter (fun p => !p.eliminated))).map (·.id) →
        find_player rs' pid = find_player rs pid) := by
  have hdet := determine_eq_spec (rs.players.filter (fun p => !p.eliminated)) hhand
  set W := c7_spec_winners (rs.players.filter (fun p => !p.eliminated)) with hW
  have hWsub : W.Sublist rs.players :=
    (c7_spec_sublist _).trans (List.filter_sublist _)
  have hWfind : ∀ w ∈ W, find_player rs w.id = some w :=
    fun w hw => find?_of_mem_nodup rs.players hnodup w (hWsub.subset hw)
  have hWnodup : (W.map (·.id)).Nodup :=
    List.Nodup.sublist (List.Sublist.map _ hWsub) hnodup
  have hlen : ¬ ((rs.players.filter (fun p => !p.eliminated)).length ≤ 1) := by omega
  have hde : rs.deck.isEmpty = true := by rw [hdeck]; rfl
  have hcheck : check_round_end g rs r = finish_round g rs r W := by
    simp only [check_round_end, hro, Bool.false_eq_true, if_false, if_neg hlen, hde,
      if_true, hdet]
  have hfind2 : ∀ w ∈ W, find_player (emit { rs with round_over := true }
      (Event.round_end (W.map (·.id)))) w.id = some w :=
    fun w hw => hWfind w hw
  obtain ⟨hev, hself, hother, hro2⟩ := award_spec W
    (emit { rs with round_over := true } (Event.round_end (W.map (·.id)))) hfind2 hWnodup
  rw [hcheck]
  simp only [finish_round]
  by_cases hWemp : W.isEmpty
  · rw [if_pos hWemp]
    refine ⟨_, _, _, rfl, hdet, ?_, ?_, ?_, ?_⟩
    · rw [hro2]; rfl
    · rw [hev]; rfl
    · exact hself
    · intro pid hpid
      rw [hother pid hpid]; rfl
  · rw [if_neg hWemp]
    have hWne : W.map (·.id) ≠ [] := by
      intro hnil
      rw [List.map_eq_nil_iff.mp hnil] at hWemp
      exact hWemp rfl
    obtain ⟨nid, r2, hch⟩ := choice_some (W.map (·.id)) r hWne
    rw [hch]
    dsimp only
    refine ⟨_, _, _, rfl, hdet, ?_, ?_, ?_, ?_⟩
    · rw [hro2]; rfl
    · rw [hev]; rfl
    · exact hself
    · intro pid hpid
      rw [hother pid hpid]; rfl

/-- Witness for C7 at a concrete two-player deck-exhausted round. -/
theorem c7_witness :
    (check_round_end gC7 rsC7 ⟨[0]⟩).isSome = true ∧
    determine_highest_hand (rsC7.players.filter (fun p => !p.eliminated)) =
      some (c7_spec_winners (rsC7.players.filter (fun p => !p.eliminated))) := by
  obtain ⟨g', rs', r', hc, hd, _⟩ := c7_deck_exhausted_winners gC7 rsC7 ⟨[0]⟩
    rfl rfl (by decide) (by decide) (by decide)
  exact ⟨by rw [hc]; rfl, hd⟩

end LoveLetter
